import Mathlib

/-!
Verification of the BeatBorders country-genre aggregation pipeline.

This file gives a shallow embedding of the core logic of
`spotify_data_refresh.py` (rate-limited fetcher, paginated collectors,
genre/artist aggregator, snapshot builder), of the boundary-normalisation
and join steps of `prepare_and_render_maps.py`, and of the corresponding
steps of `app.py`, together with theorems settling the specification
claims about them.

Modelling conventions:
- JSON response bodies are modelled by the inductive `BB.Json`; a body that
  is not valid JSON text is out of scope (the `requests` layer is the
  boundary), but a body of the wrong JSON shape is representable.
- Python exceptions are modelled by `Except BB.PyErr`; an uncaught
  exception is an `Except.error`.
- The network is modelled as a function `Nat → BB.NetEvent` giving the
  outcome of the i-th HTTP request of the process (in program order);
  every component threads the index of the next request.
- `time.sleep` calls inside `safe_request` are recorded in a trace so that
  backoff behaviour is statable; sleeps elsewhere are irrelevant throttles.
- Machine integers do not occur: Python ints are unbounded, so `Int`/`Nat`
  are exact models.
-/

namespace BB

/-- A JSON value, as returned by `resp.json()` in the source. Numbers are
restricted to integers because every number the pipeline touches
(popularity scores, counts) is an integer. -/
inductive Json where
  | null
  | bool (b : Bool)
  | num (n : Int)
  | str (s : String)
  | arr (xs : List Json)
  | obj (kvs : List (String × Json))
deriving Repr, Inhabited

mutual
/-- Structural equality test on `Json` (Python `==` on parsed JSON data). -/
def Json.beq : Json → Json → Bool
  | .null, .null => true
  | .bool a, .bool b => a == b
  | .num a, .num b => a == b
  | .str a, .str b => a == b
  | .arr as, .arr bs => Json.beqL as bs
  | .obj as, .obj bs => Json.beqKV as bs
  | _, _ => false
/-- Elementwise equality on JSON arrays. -/
def Json.beqL : List Json → List Json → Bool
  | [], [] => true
  | a :: as, b :: bs => Json.beq a b && Json.beqL as bs
  | _, _ => false
/-- Elementwise equality on JSON object member lists. -/
def Json.beqKV : List (String × Json) → List (String × Json) → Bool
  | [], [] => true
  | (k, a) :: as, (l, b) :: bs => k == l && Json.beq a b && Json.beqKV as bs
  | _, _ => false
end

instance : BEq Json := ⟨Json.beq⟩

mutual
/-- Json.beq decides propositional equality. -/
theorem Json.beq_iff : ∀ a b : Json, Json.beq a b = true ↔ a = b
  | .null, b => by cases b <;> simp [Json.beq]
  | .bool x, b => by cases b <;> simp [Json.beq]
  | .num x, b => by cases b <;> simp [Json.beq]
  | .str x, b => by cases b <;> simp [Json.beq]
  | .arr xs, b => by
      cases b <;> simp [Json.beq]
      exact Json.beqL_iff xs _
  | .obj xs, b => by
      cases b <;> simp [Json.beq]
      exact Json.beqKV_iff xs _
/-- Json.beqL decides equality of arrays. -/
theorem Json.beqL_iff : ∀ as bs : List Json, Json.beqL as bs = true ↔ as = bs
  | [], bs => by cases bs <;> simp [Json.beqL]
  | a :: as, bs => by
      cases bs with
      | nil => simp [Json.beqL]
      | cons b bs =>
          simp [Json.beqL, Bool.and_eq_true, Json.beq_iff a b, Json.beqL_iff as bs]
/-- Json.beqKV decides equality of member lists. -/
theorem Json.beqKV_iff : ∀ as bs : List (String × Json), Json.beqKV as bs = true ↔ as = bs
  | [], bs => by cases bs <;> simp [Json.beqKV]
  | (k, a) :: as, bs => by
      cases bs with
      | nil => simp [Json.beqKV]
      | cons b bs =>
          cases b with
          | mk l v =>
            simp [Json.beqKV, Bool.and_eq_true, Json.beq_iff a v, Json.beqKV_iff as bs,
              and_assoc]
end

instance : LawfulBEq Json where
  eq_of_beq h := (Json.beq_iff _ _).mp h
  rfl := (Json.beq_iff _ _).mpr rfl

instance : DecidableEq Json := fun a b =>
  decidable_of_iff (Json.beq a b = true) (Json.beq_iff a b)

/-- The Python exceptions the embedded code can raise. -/
inductive PyErr where
  | valueError
  | attributeError
  | typeError
  | keyError
  | indexError
deriving Repr, DecidableEq

/-- Python truthiness (`if not x`) of a JSON value: None, False, 0, empty
string, empty list and empty dict are falsy. -/
def pyTruthy : Json → Bool
  | .null => false
  | .bool b => b
  | .num n => n != 0
  | .str s => !s.isEmpty
  | .arr xs => !xs.isEmpty
  | .obj kvs => !kvs.isEmpty

/-- Python `d.get(k, default)`: raises AttributeError unless `d` is a dict. -/
def pyGetD : Json → String → Json → Except PyErr Json
  | .obj kvs, k, d => .ok ((kvs.lookup k).getD d)
  | _, _, _ => .error .attributeError

/-- Python `d[k]` with a string key: KeyError when the key is absent,
TypeError when the subject is not a dict. -/
def pySubscrKey : Json → String → Except PyErr Json
  | .obj kvs, k =>
      match kvs.lookup k with
      | some v => .ok v
      | none => .error .keyError
  | _, _ => .error .typeError

/-- Python `x[i]` with an integer index on a list or string. -/
def pySubscrIdx : Json → Nat → Except PyErr Json
  | .arr xs, n =>
      match xs.get? n with
      | some v => .ok v
      | none => .error .indexError
  | .str s, n =>
      match s.data.get? n with
      | some c => .ok (.str (String.mk [c]))
      | none => .error .indexError
  | _, _ => .error .typeError

/-- Python iteration over a JSON value (used by `list.extend`, `for` and
slicing): lists yield elements, strings yield one-character strings, dicts
yield their keys; other values raise TypeError. -/
def pyToList : Json → Except PyErr (List Json)
  | .arr xs => .ok xs
  | .str s => .ok (s.data.map (fun c => .str (String.mk [c])))
  | .obj kvs => .ok (kvs.map (fun p => .str p.1))
  | _ => .error .typeError

/-- Python `a + x` with an integer accumulator: numbers add, booleans count
as 0/1, anything else raises TypeError. -/
def pyAdd (a : Int) : Json → Except PyErr Int
  | .num n => .ok (a + n)
  | .bool b => .ok (a + if b then 1 else 0)
  | _ => .error .typeError

/-- Whitespace recognised by `int()` stripping. -/
def wsChar (c : Char) : Bool :=
  c == ' ' || c == '\t' || c == '\n' || c == '\r'

/-- Strip leading and trailing whitespace from a character list. -/
def stripWsL (cs : List Char) : List Char :=
  ((cs.dropWhile wsChar).reverse.dropWhile wsChar).reverse

/-- Numeric value of a digit string. -/
def digitsVal (ds : List Char) : Nat :=
  ds.foldl (fun a c => a * 10 + (c.toNat - 48)) 0

/-- Python `int(s)` on a decimal string: optional surrounding whitespace,
optional sign, then one or more ASCII digits; anything else raises
ValueError (modelled as `none`). Underscore digit grouping and non-ASCII
digits, which CPython also accepts, cannot occur in HTTP headers and are
not modelled. -/
def pyIntParse (s : String) : Option Int :=
  let cs := stripWsL s.data
  let signed : Bool × List Char :=
    match cs with
    | '-' :: rest => (true, rest)
    | '+' :: rest => (false, rest)
    | _ => (false, cs)
  if signed.2 ≠ [] ∧ signed.2.all Char.isDigit then
    some (if signed.1 then -(digitsVal signed.2 : Int) else (digitsVal signed.2 : Int))
  else none

instance {ε α : Type} [DecidableEq ε] [DecidableEq α] : DecidableEq (Except ε α) := fun x y =>
  match x, y with
  | .ok a, .ok b => if h : a = b then .isTrue (by rw [h]) else .isFalse (by simp [h])
  | .error a, .error b => if h : a = b then .isTrue (by rw [h]) else .isFalse (by simp [h])
  | .ok _, .error _ => .isFalse (by simp)
  | .error _, .ok _ => .isFalse (by simp)

/-- An HTTP response as `safe_request` sees it: status code, the
`Retry-After` header if present, and the parsed JSON body. -/
structure Resp where
  status : Nat
  retryAfter : Option String
  body : Json
deriving Repr, DecidableEq

/-- Outcome of one physical `requests.request` call: a response, or a
transport-level `requests.RequestException` (timeout, connection error). -/
inductive NetEvent where
  | success (r : Resp)
  | exn
deriving Repr, DecidableEq

/-- Result of a `safe_request` call: the returned value (or the uncaught
exception), the index of the next unconsumed network event, and the list
of durations passed to `time.sleep` inside the call, in order. -/
structure SR where
  res : Except PyErr (Option Resp)
  next : Nat
  sleeps : List Int
deriving Repr, DecidableEq

/-- Loop body of `safe_request` (spotify_data_refresh.py lines 46-64),
with `fuel` remaining attempts out of 3 (so the attempt number is
`4 - fuel`). On 429 the `Retry-After` header (default "1") is parsed with
`int(...)`; a parse failure, or a negative value passed to `time.sleep`,
raises an uncaught ValueError. Statuses 400-499 return None immediately;
`raise_for_status` turns 500-599 into a caught `HTTPError`, which sleeps
`2 ** attempt` and retries, as does a transport error. When the attempts
are exhausted the function returns None. -/
def sr_go (ev : Nat → NetEvent) : Nat → Nat → SR
  | i, 0 => ⟨.ok none, i, []⟩
  | i, n + 1 =>
    match ev i with
    | .exn =>
        let s := sr_go ev (i + 1) n
        ⟨s.res, s.next, (2 ^ (3 - n) : Int) :: s.sleeps⟩
    | .success r =>
        if r.status = 429 then
          match pyIntParse (r.retryAfter.getD "1") with
          | none => ⟨.error .valueError, i + 1, []⟩
          | some t =>
            if t < 0 then ⟨.error .valueError, i + 1, []⟩
            else
              let s := sr_go ev (i + 1) n
              ⟨s.res, s.next, t :: s.sleeps⟩
        else if 400 ≤ r.status ∧ r.status < 500 then ⟨.ok none, i + 1, []⟩
        else if 500 ≤ r.status ∧ r.status < 600 then
          let s := sr_go ev (i + 1) n
          ⟨s.res, s.next, (2 ^ (3 - n) : Int) :: s.sleeps⟩
        else ⟨.ok (some r), i + 1, []⟩

/-- The `safe_request` primitive: up to 3 total attempts. -/
def safe_request (ev : Nat → NetEvent) (i : Nat) : SR :=
  sr_go ev i 3

/-- A finite script of network events; requests past the end of the script
see a plain 404 (so the fetcher reports no result for them). -/
def evOfList (l : List NetEvent) : Nat → NetEvent :=
  fun i => (l.get? i).getD (NetEvent.success ⟨404, none, Json.null⟩)

/-- Python dict assignment `d[k] = v`: overwrite in place when the key is
present, append otherwise (dicts preserve insertion order). -/
def dictSet {α β : Type} [BEq α] : List (α × β) → α → β → List (α × β)
  | [], k, v => [(k, v)]
  | p :: d, k, v => if p.1 == k then (p.1, v) :: d else p :: dictSet d k v

/-- The `defaultdict(int)` update `d[k] += pop`: a missing key enters the
dict (at the end, preserving first-encounter order) with value 0 first. -/
def dAdd (d : List (Json × Int)) (k : Json) (pop : Json) : Except PyErr (List (Json × Int)) :=
  match d.lookup k with
  | some v => do
      let v2 ← pyAdd v pop
      pure (dictSet d k v2)
  | none => do
      let v2 ← pyAdd 0 pop
      pure (d ++ [(k, v2)])

/-- Stable insertion for a descending sort by score: the new element goes
after every earlier element whose score is at least its own. -/
def insDesc {α : Type} (x : α × Int) : List (α × Int) → List (α × Int)
  | [] => [x]
  | y :: ys => if y.2 ≤ x.2 then x :: y :: ys else y :: insDesc x ys

/-- Python `sorted(l, key=lambda x: x[1], reverse=True)`: a stable sort by
descending score, leaving equal-score elements in input order. -/
def pySortDesc {α : Type} : List (α × Int) → List (α × Int)
  | [] => []
  | x :: xs => insDesc x (pySortDesc xs)

/-- Number of iterations of `for offset in range(0, total, 50)`. -/
def numPages (total : Nat) : Nat := (total + 49) / 50

/-- Configuration values read from config.yaml and consumed by the core. -/
structure Config where
  markets_limit : Nat
  genres_limit : Nat
  tracks_per_genre : Nat
  top_n_genres : Nat
  top_n_artists : Nat
deriving Repr, DecidableEq

/-- Token Provider, `get_token` (lines 69-78): one `safe_request`; on no
result return None, otherwise `resp.json().get('access_token')`. -/
def get_token (ev : Nat → NetEvent) (i : Nat) : Except PyErr (Json × Nat) :=
  let s := safe_request ev i
  match s.res with
  | .error e => .error e
  | .ok none => .ok (Json.null, s.next)
  | .ok (some r) => do
      let tok ← pyGetD r.body "access_token" Json.null
      pure (tok, s.next)

/-- Page loop of `get_all_categories` (lines 83-103), with `fuel` the number
of remaining offsets. Items come from `resp.json().get('categories',
{}).get('items', [])`; an empty page breaks before extending, a short page
breaks after extending, and each kept item contributes the pair
`(i['name'], i['id'])`. -/
def cat_go (ev : Nat → NetEvent) :
    Nat → List (Json × Json) → Nat → Except PyErr (List (Json × Json) × Nat)
  | i, acc, 0 => .ok (acc, i)
  | i, acc, n + 1 =>
    let s := safe_request ev i
    match s.res with
    | .error e => .error e
    | .ok none => .ok (acc, s.next)
    | .ok (some r) => do
        let cats ← pyGetD r.body "categories" (Json.obj [])
        let items ← pyGetD cats "items" (Json.arr [])
        if pyTruthy items = false then .ok (acc, s.next)
        else do
          let xs ← pyToList items
          let prs ← xs.mapM (fun it => do
            let nm ← pySubscrKey it "name"
            let idv ← pySubscrKey it "id"
            pure (nm, idv))
          if xs.length < 50 then .ok (acc ++ prs, s.next)
          else cat_go ev s.next (acc ++ prs) n

/-- Paginated Collector for browse categories: run the page loop over
`range(0, total, 50)` and slice the result to `total`. -/
def get_all_categories (ev : Nat → NetEvent) (token : Json) (total : Nat) (i : Nat) :
    Except PyErr (List (Json × Json) × Nat) := do
  let (cats, j) ← cat_go ev i [] (numPages total)
  pure (cats.take total, j)

/-- Page loop of `fetch_genre_tracks` (lines 108-141): same shape as
`cat_go` but items come from `tracks.items` and are kept raw. -/
def tracks_go (ev : Nat → NetEvent) :
    Nat → List Json → Nat → Except PyErr (List Json × Nat)
  | i, acc, 0 => .ok (acc, i)
  | i, acc, n + 1 =>
    let s := safe_request ev i
    match s.res with
    | .error e => .error e
    | .ok none => .ok (acc, s.next)
    | .ok (some r) => do
        let tr ← pyGetD r.body "tracks" (Json.obj [])
        let items ← pyGetD tr "items" (Json.arr [])
        if pyTruthy items = false then .ok (acc, s.next)
        else do
          let xs ← pyToList items
          if xs.length < 50 then .ok (acc ++ xs, s.next)
          else tracks_go ev s.next (acc ++ xs) n

/-- Paginated Collector for track search: page loop then slice to
`total_tracks`. The `genre` and `market` arguments only shape the query
string, which the network model absorbs into the event sequence. -/
def fetch_genre_tracks (ev : Nat → NetEvent) (token genre : Json) (market : Option Json)
    (total_tracks : Nat) (i : Nat) : Except PyErr (List Json × Nat) := do
  let (ts, j) ← tracks_go ev i [] (numPages total_tracks)
  pure (ts.take total_tracks, j)

/-- Markets fetch, `get_markets` (lines 146-157): one `safe_request` with a
`limit` parameter, items from `resp.json().get('markets', [])`, sliced to
`MARKETS_LIMIT`. There is no offset loop. -/
def get_markets (ev : Nat → NetEvent) (cfg : Config) (token : Json) (i : Nat) :
    Except PyErr (List Json × Nat) :=
  let s := safe_request ev i
  match s.res with
  | .error e => .error e
  | .ok none => .ok ([], s.next)
  | .ok (some r) => do
      let ms ← pyGetD r.body "markets" (Json.arr [])
      let xs ← pyToList ms
      .ok (xs.take cfg.markets_limit, s.next)

/-- Sum of `t.get('popularity', 0)` over a track list (lines 194 and 219). -/
def sumPop (tracks : List Json) : Except PyErr Int :=
  tracks.foldlM (fun s t => do
    let p ← pyGetD t "popularity" (Json.num 0)
    pyAdd s p) 0

/-- Body of the accumulation loop of `fetch_top_artists_for_genre` (lines
171-177): skip tracks with a falsy artist list, attribute
`t.get('popularity', 0)` to `artists[0].get('name')` in the
`defaultdict(int)` accumulator. -/
def artistStep (acc : List (Json × Int)) (t : Json) : Except PyErr (List (Json × Int)) := do
  let artists ← pyGetD t "artists" (Json.arr [])
  if pyTruthy artists = false then pure acc
  else do
    let a0 ← pySubscrIdx artists 0
    let nm ← pyGetD a0 "name" Json.null
    let pop ← pyGetD t "popularity" (Json.num 0)
    dAdd acc nm pop

/-- Accumulation loop of `fetch_top_artists_for_genre` (lines 170-177). -/
def artistScores (tracks : List Json) : Except PyErr (List (Json × Int)) :=
  tracks.foldlM artistStep []

/-- Ranking step of `fetch_top_artists_for_genre` (lines 178-179): sort the
accumulated scores by descending value (stable) and keep the first `top_n`. -/
def aggregateTop (tracks : List Json) (top_n : Nat) : Except PyErr (List (Json × Int)) := do
  let scores ← artistScores tracks
  pure ((pySortDesc scores).take top_n)

/-- Genre/Artist Aggregator entry point (lines 162-179): fetch the tracks,
then accumulate and rank. -/
def fetch_top_artists_for_genre (ev : Nat → NetEvent) (token genre : Json)
    (market : Option Json) (total_tracks top_n : Nat) (i : Nat) :
    Except PyErr (List (Json × Int) × Nat) := do
  let (tracks, j) ← fetch_genre_tracks ev token genre market total_tracks i
  let arts ← aggregateTop tracks top_n
  pure (arts, j)

/-- Global score loop of `main` (lines 192-197): for every discovered
category, fetch its tracks with no market filter and append the summed
popularity. -/
def globalScoresLoop (ev : Nat → NetEvent) (cfg : Config) (token : Json) :
    List (Json × Json) → List (Json × Int) → Nat → Except PyErr (List (Json × Int) × Nat)
  | [], acc, i => .ok (acc, i)
  | (name, _) :: rest, acc, i => do
      let (tracks, i1) ← fetch_genre_tracks ev token name none cfg.tracks_per_genre i
      let score ← sumPop tracks
      globalScoresLoop ev cfg token rest (acc ++ [(name, score)]) i1

/-- Inner loop of `main` (lines 217-223): per genre, fetch the tracks for
the (market, genre) pair, record the summed score in `country_scores`, and
record the (separately fetched) top-artist ranking in `country_artists`. -/
def genreLoop (ev : Nat → NetEvent) (cfg : Config) (token market : Json) :
    List Json → List (Json × Int) → List (Json × List (Json × Int)) → Nat →
    Except PyErr (List (Json × Int) × List (Json × List (Json × Int)) × Nat)
  | [], cs, as, i => .ok (cs, as, i)
  | g :: gs, cs, as, i => do
      let (tracks, i1) ← fetch_genre_tracks ev token g (some market) cfg.tracks_per_genre i
      let score ← sumPop tracks
      let (arts, i2) ← fetch_top_artists_for_genre ev token g (some market)
        cfg.tracks_per_genre cfg.top_n_artists i1
      genreLoop ev cfg token market gs (dictSet cs g score) (dictSet as g arts) i2

/-- Outer loop of `main` (lines 213-226): per market, run the genre loop
from empty dicts and store both results under the market key. -/
def marketsLoop (ev : Nat → NetEvent) (cfg : Config) (token : Json) (top_genres : List Json) :
    List Json → List (Json × List (Json × Int)) →
    List (Json × List (Json × List (Json × Int))) → Nat →
    Except PyErr (List (Json × List (Json × Int)) ×
      List (Json × List (Json × List (Json × Int))) × Nat)
  | [], cgp, ta, i => .ok (cgp, ta, i)
  | m :: ms, cgp, ta, i => do
      let (cs, as, i1) ← genreLoop ev cfg token m top_genres [] [] i
      marketsLoop ev cfg token top_genres ms (dictSet cgp m cs) (dictSet ta m as) i1

/-- The persisted dataset (the `result` dict serialised at lines 207-229). -/
structure Snapshot where
  top_genres : List Json
  country_genre_popularity : List (Json × List (Json × Int))
  top_artists : List (Json × List (Json × List (Json × Int)))
deriving Repr, DecidableEq

/-- Snapshot Builder `main` (lines 184-230). The returned value is `none`
when the run bails out before building output (no token, no markets),
`some snapshot` when the output file is written, and an error when an
uncaught exception aborts the run (no file written in that case either,
since the write is the final statement). -/
def main (ev : Nat → NetEvent) (cfg : Config) : Except PyErr (Option Snapshot) := do
  let (token, i1) ← get_token ev 0
  if pyTruthy token = false then pure none else do
  let (categories, i2) ← get_all_categories ev token cfg.genres_limit i1
  let (global_scores, i3) ← globalScoresLoop ev cfg token categories [] i2
  let top_genres := ((pySortDesc global_scores).take cfg.top_n_genres).map Prod.fst
  let (markets, i4) ← get_markets ev cfg token i3
  if markets.isEmpty then pure none else do
  let (cgp, ta, _) ← marketsLoop ev cfg token top_genres markets [] [] i4
  pure (some ⟨top_genres, cgp, ta⟩)

/-! ### Fetcher lemmas (claims C2 and C3) -/

/-- A network event on which one `safe_request` attempt fails and the loop
retries: a transport error, a 5xx, or a 429 whose `Retry-After` parses to a
nonnegative integer. -/
def retriableFailB : NetEvent → Bool
  | .exn => true
  | .success r =>
      (decide (500 ≤ r.status) && decide (r.status < 600)) ||
      (decide (r.status = 429) &&
        match pyIntParse (r.retryAfter.getD "1") with
        | some t => decide (0 ≤ t)
        | none => false)

/-- One unfolding of the attempt loop. -/
theorem sr_go_eq (ev : Nat → NetEvent) (i n : Nat) :
    sr_go ev i (n + 1) =
      (match ev i with
       | .exn =>
           let s := sr_go ev (i + 1) n
           ⟨s.res, s.next, (2 ^ (3 - n) : Int) :: s.sleeps⟩
       | .success r =>
           if r.status = 429 then
             match pyIntParse (r.retryAfter.getD "1") with
             | none => ⟨.error .valueError, i + 1, []⟩
             | some t =>
               if t < 0 then ⟨.error .valueError, i + 1, []⟩
               else
                 let s := sr_go ev (i + 1) n
                 ⟨s.res, s.next, t :: s.sleeps⟩
           else if 400 ≤ r.status ∧ r.status < 500 then ⟨.ok none, i + 1, []⟩
           else if 500 ≤ r.status ∧ r.status < 600 then
             let s := sr_go ev (i + 1) n
             ⟨s.res, s.next, (2 ^ (3 - n) : Int) :: s.sleeps⟩
           else ⟨.ok (some r), i + 1, []⟩ : SR) := rfl

/-- Each `safe_request` attempt consumes at most one network event. -/
theorem sr_go_next_le (ev : Nat → NetEvent) : ∀ n i, (sr_go ev i n).next ≤ i + n := by
  intro n
  induction n with
  | zero => intro i; simp [sr_go]
  | succ n ih =>
    intro i
    have h := ih (i + 1)
    rw [sr_go_eq]
    cases ev i with
    | exn =>
        dsimp only
        omega
    | success r =>
        dsimp only
        split
        · split
          · dsimp only; omega
          · split
            · dsimp only; omega
            · dsimp only; omega
        · split
          · dsimp only; omega
          · split
            · dsimp only; omega
            · dsimp only; omega

/-- On a retriable failure the attempt loop moves on to the next event,
preserving result and final index. -/
theorem sr_go_retri (ev : Nat → NetEvent) (n i : Nat)
    (h : retriableFailB (ev i) = true) :
    (sr_go ev i (n + 1)).res = (sr_go ev (i + 1) n).res ∧
    (sr_go ev i (n + 1)).next = (sr_go ev (i + 1) n).next := by
  rw [sr_go_eq]
  cases hev : ev i with
  | exn => exact ⟨rfl, rfl⟩
  | success r =>
    rw [hev] at h
    unfold retriableFailB at h
    simp only [Bool.or_eq_true, Bool.and_eq_true, decide_eq_true_eq] at h
    dsimp only
    rcases h with ⟨h5, h6⟩ | ⟨h429, hpar⟩
    · have hne : ¬ r.status = 429 := by omega
      have hn4 : ¬ (400 ≤ r.status ∧ r.status < 500) := by omega
      rw [if_neg hne, if_neg hn4, if_pos ⟨h5, h6⟩]
      exact ⟨rfl, rfl⟩
    · rw [if_pos h429]
      cases hpi : pyIntParse (r.retryAfter.getD "1") with
      | none => rw [hpi] at hpar; exact absurd hpar (by simp)
      | some t =>
          rw [hpi] at hpar
          simp only [decide_eq_true_eq] at hpar
          dsimp only
          rw [if_neg (by omega : ¬ t < 0)]
          exact ⟨rfl, rfl⟩

/-- A 429 with a parseable nonnegative Retry-After sleeps that long and
retries. -/
theorem sr_go_429 (ev : Nat → NetEvent) (n i : Nat) (r : Resp) (t : Int)
    (hev : ev i = .success r) (h429 : r.status = 429)
    (hpar : pyIntParse (r.retryAfter.getD "1") = some t) (ht : ¬ t < 0) :
    sr_go ev i (n + 1) =
      ⟨(sr_go ev (i + 1) n).res, (sr_go ev (i + 1) n).next,
        t :: (sr_go ev (i + 1) n).sleeps⟩ := by
  rw [sr_go_eq, hev]
  dsimp only
  rw [if_pos h429, hpar]
  dsimp only
  rw [if_neg ht]

/-- A non-429 4xx returns the no-result signal at once. -/
theorem sr_go_4xx (ev : Nat → NetEvent) (n i : Nat) (r : Resp)
    (hev : ev i = .success r) (h1 : ¬ r.status = 429)
    (h2 : 400 ≤ r.status ∧ r.status < 500) :
    sr_go ev i (n + 1) = ⟨.ok none, i + 1, []⟩ := by
  rw [sr_go_eq, hev]
  dsimp only
  rw [if_neg h1, if_pos h2]

/-- A status that is neither 429, nor 4xx, nor 5xx is returned as the
successful response. -/
theorem sr_go_ret (ev : Nat → NetEvent) (n i : Nat) (r : Resp)
    (hev : ev i = .success r) (h1 : ¬ r.status = 429)
    (h2 : ¬ (400 ≤ r.status ∧ r.status < 500))
    (h3 : ¬ (500 ≤ r.status ∧ r.status < 600)) :
    sr_go ev i (n + 1) = ⟨.ok (some r), i + 1, []⟩ := by
  rw [sr_go_eq, hev]
  dsimp only
  rw [if_neg h1, if_neg h2, if_neg h3]

/-- C3: a first-response 404 returns the no-result signal after exactly one
request with no sleeping; a 429 with a well-formed nonnegative Retry-After
followed by a 200 returns that response after exactly one retry (two
requests, one sleep of the parsed duration); every call issues at most 3
requests; and three retriable failures in a row end in the no-result signal
after exactly 3 requests. -/
theorem C3_request_budget :
    (∀ (ev : Nat → NetEvent) (r : Resp), ev 0 = .success r → r.status = 404 →
      safe_request ev 0 = ⟨.ok none, 1, []⟩) ∧
    (∀ (ev : Nat → NetEvent) (r1 r2 : Resp) (t : Int),
      ev 0 = .success r1 → r1.status = 429 →
      pyIntParse (r1.retryAfter.getD "1") = some t → ¬ t < 0 →
      ev 1 = .success r2 → r2.status = 200 →
      safe_request ev 0 = ⟨.ok (some r2), 2, [t]⟩) ∧
    (∀ (ev : Nat → NetEvent) (i : Nat), (safe_request ev i).next ≤ i + 3) ∧
    (∀ ev : Nat → NetEvent, (∀ j, j < 3 → retriableFailB (ev j) = true) →
      (safe_request ev 0).res = .ok none ∧ (safe_request ev 0).next = 3) := by
  refine ⟨?_, ?_, ?_, ?_⟩
  · intro ev r hev hst
    show sr_go ev 0 (2 + 1) = _
    rw [sr_go_4xx ev 2 0 r hev (by omega) (by omega)]
  · intro ev r1 r2 t hev1 hst1 hpar ht hev2 hst2
    show sr_go ev 0 (2 + 1) = _
    rw [sr_go_429 ev 2 0 r1 t hev1 hst1 hpar ht]
    have h200 : sr_go ev (0 + 1) 2 = ⟨.ok (some r2), 2, []⟩ :=
      sr_go_ret ev 1 1 r2 hev2 (by omega) (by omega) (by omega)
    rw [h200]
  · intro ev i
    exact sr_go_next_le ev 3 i
  · intro ev h
    have h0 := sr_go_retri ev 2 0 (h 0 (by omega))
    have h1 := sr_go_retri ev 1 1 (h 1 (by omega))
    have h2 := sr_go_retri ev 0 2 (h 2 (by omega))
    unfold safe_request
    constructor
    · rw [show (3 : Nat) = 2 + 1 from rfl, h0.1, h1.1, h2.1]; rfl
    · rw [show (3 : Nat) = 2 + 1 from rfl, h0.2, h1.2, h2.2]; rfl

/-- Witness for C3 at concrete scripts: a lone 404; a 429 with
Retry-After 7 then a 200; the request bound at an empty script; and three
transport errors. -/
theorem C3_request_budget_witness :
    safe_request (evOfList [.success ⟨404, none, Json.null⟩]) 0 = ⟨.ok none, 1, []⟩ ∧
    safe_request (evOfList [.success ⟨429, some "7", Json.null⟩,
      .success ⟨200, none, Json.obj []⟩]) 0
      = ⟨.ok (some ⟨200, none, Json.obj []⟩), 2, [7]⟩ ∧
    (safe_request (evOfList []) 5).next ≤ 5 + 3 ∧
    ((safe_request (evOfList [.exn, .success ⟨500, none, Json.null⟩,
        .success ⟨429, some "2", Json.null⟩]) 0).res = .ok none ∧
      (safe_request (evOfList [.exn, .success ⟨500, none, Json.null⟩,
        .success ⟨429, some "2", Json.null⟩]) 0).next = 3) := by
  refine ⟨?_, ?_, ?_, ?_⟩
  · exact C3_request_budget.1 _ _ rfl rfl
  · exact C3_request_budget.2.1 _ _ _ 7 rfl rfl (by decide) (by decide) rfl rfl
  · exact C3_request_budget.2.2.1 _ 5
  · exact C3_request_budget.2.2.2 _ (by decide)

/-- C2 (amended): a 429 with the Retry-After header absent sleeps the
default 1 second and retries; and `safe_request` is total (returns a
response or the no-result signal, never an exception) over every event
sequence whose 429 responses carry a parseable nonnegative Retry-After —
the default header also counts, so ordinary HTTP failures never raise. A
malformed Retry-After instead raises ValueError (see the counterexample). -/
theorem C2_retry_default_amended :
    (∀ (ev : Nat → NetEvent) (i n : Nat) (r : Resp),
      ev i = .success r → r.status = 429 → r.retryAfter = none →
      sr_go ev i (n + 1) =
        ⟨(sr_go ev (i + 1) n).res, (sr_go ev (i + 1) n).next,
          1 :: (sr_go ev (i + 1) n).sleeps⟩) ∧
    (∀ (ev : Nat → NetEvent) (i n : Nat),
      (∀ j r, ev j = .success r → r.status = 429 →
        ∃ t, pyIntParse (r.retryAfter.getD "1") = some t ∧ 0 ≤ t) →
      ∃ o, (sr_go ev i n).res = .ok o) := by
  constructor
  · intro ev i n r hev hst hra
    rw [sr_go_eq, hev]
    dsimp only
    rw [if_pos hst, hra]
    have : pyIntParse ((none : Option String).getD "1") = some 1 := by decide
    rw [this]
    dsimp only
    rw [if_neg (by omega : ¬ (1 : Int) < 0)]
  · intro ev i n h
    induction n generalizing i with
    | zero => exact ⟨none, rfl⟩
    | succ n ih =>
      rw [sr_go_eq]
      cases hev : ev i with
      | exn => exact ih (i + 1)
      | success r =>
        dsimp only
        by_cases h429 : r.status = 429
        · rcases h i r hev h429 with ⟨t, hpar, ht⟩
          rw [if_pos h429, hpar]
          dsimp only
          rw [if_neg (by omega : ¬ t < 0)]
          exact ih (i + 1)
        · rw [if_neg h429]
          by_cases h4 : 400 ≤ r.status ∧ r.status < 500
          · rw [if_pos h4]; exact ⟨none, rfl⟩
          · rw [if_neg h4]
            by_cases h5 : 500 ≤ r.status ∧ r.status < 600
            · rw [if_pos h5]; exact ih (i + 1)
            · rw [if_neg h5]; exact ⟨some r, rfl⟩

/-- Witness for C2 at concrete inputs: a header-less 429 then a 404, and
totality on that same script. -/
theorem C2_retry_default_amended_witness :
    sr_go (evOfList [.success ⟨429, none, Json.null⟩, .success ⟨404, none, Json.null⟩]) 0 (2 + 1)
      = ⟨(sr_go (evOfList [.success ⟨429, none, Json.null⟩, .success ⟨404, none, Json.null⟩]) 1 2).res,
          (sr_go (evOfList [.success ⟨429, none, Json.null⟩, .success ⟨404, none, Json.null⟩]) 1 2).next,
          1 :: (sr_go (evOfList [.success ⟨429, none, Json.null⟩,
            .success ⟨404, none, Json.null⟩]) 1 2).sleeps⟩ ∧
    (∃ o, (sr_go (evOfList [.success ⟨429, none, Json.null⟩,
      .success ⟨404, none, Json.null⟩]) 0 3).res = .ok o) := by
  constructor
  · exact C2_retry_default_amended.1 _ 0 2 ⟨429, none, Json.null⟩ rfl rfl rfl
  · refine C2_retry_default_amended.2 _ 0 3 ?_
    intro j r hev hst
    refine ⟨1, ?_, by omega⟩
    by_cases hj : j = 0
    · subst hj
      simp only [evOfList, List.get?] at hev
      cases hev
      rfl
    · by_cases hj1 : j = 1
      · subst hj1
        simp only [evOfList, List.get?] at hev
        cases hev
        exact absurd hst (by decide)
      · have : evOfList [.success ⟨429, none, Json.null⟩, .success ⟨404, none, Json.null⟩] j
            = .success ⟨404, none, Json.null⟩ := by
          unfold evOfList
          have : [NetEvent.success ⟨429, none, Json.null⟩,
              .success ⟨404, none, Json.null⟩].get? j = none := by
            apply List.get?_eq_none.mpr
            simp only [List.length]
            omega
          rw [this]
          rfl
        rw [this] at hev
        cases hev
        exact absurd hst (by decide)

/-! ### Paginated Collector lemmas (claim C4) -/

/-- Event script for track search: request j answers 200 with the j-th page
under `tracks.items`; past the end of the script the answer is a 404, on
which the Fetcher reports no result. -/
def tracksPagesEv (pages : List (List Json)) : Nat → NetEvent :=
  fun j =>
    match pages.get? j with
    | some xs => .success ⟨200, none, Json.obj [("tracks", Json.obj [("items", Json.arr xs)])]⟩
    | none => .success ⟨404, none, Json.null⟩

/-- Event script for browse categories: pages of (name, id) pairs encoded
as the item objects the endpoint returns. -/
def catPagesEv (pages : List (List (String × String))) : Nat → NetEvent :=
  fun j =>
    match pages.get? j with
    | some xs => .success ⟨200, none, Json.obj [("categories", Json.obj [("items",
        Json.arr (xs.map (fun pr => Json.obj [("name", .str pr.1), ("id", .str pr.2)])))])]⟩
    | none => .success ⟨404, none, Json.null⟩

/-- A 200 response is returned by the first attempt. -/
theorem safe_request_200 (ev : Nat → NetEvent) (i : Nat) (b : Json)
    (hev : ev i = .success ⟨200, none, b⟩) :
    safe_request ev i = ⟨.ok (some ⟨200, none, b⟩), i + 1, []⟩ :=
  sr_go_ret ev 2 i ⟨200, none, b⟩ hev (by simp) (by simp) (by simp)

/-- A 404 response makes the Fetcher report no result at once. -/
theorem safe_request_404 (ev : Nat → NetEvent) (i : Nat)
    (hev : ev i = .success ⟨404, none, Json.null⟩) :
    safe_request ev i = ⟨.ok none, i + 1, []⟩ :=
  sr_go_4xx ev 2 i ⟨404, none, Json.null⟩ hev (by decide) (by decide)

/-- One unfolding of the track page loop. -/
theorem tracks_go_eq (ev : Nat → NetEvent) (i : Nat) (acc : List Json) (n : Nat) :
    tracks_go ev i acc (n + 1) =
      (let s := safe_request ev i
       match s.res with
       | .error e => .error e
       | .ok none => .ok (acc, s.next)
       | .ok (some r) => do
           let tr ← pyGetD r.body "tracks" (Json.obj [])
           let items ← pyGetD tr "items" (Json.arr [])
           if pyTruthy items = false then .ok (acc, s.next)
           else do
             let xs ← pyToList items
             if xs.length < 50 then .ok (acc ++ xs, s.next)
             else tracks_go ev s.next (acc ++ xs) n) := rfl

/-- One unfolding of the category page loop. -/
theorem cat_go_eq (ev : Nat → NetEvent) (i : Nat) (acc : List (Json × Json)) (n : Nat) :
    cat_go ev i acc (n + 1) =
      (let s := safe_request ev i
       match s.res with
       | .error e => .error e
       | .ok none => .ok (acc, s.next)
       | .ok (some r) => do
           let cats ← pyGetD r.body "categories" (Json.obj [])
           let items ← pyGetD cats "items" (Json.arr [])
           if pyTruthy items = false then .ok (acc, s.next)
           else do
             let xs ← pyToList items
             let prs ← xs.mapM (fun it => do
               let nm ← pySubscrKey it "name"
               let idv ← pySubscrKey it "id"
               pure (nm, idv))
             if xs.length < 50 then .ok (acc ++ prs, s.next)
             else cat_go ev s.next (acc ++ prs) n) := rfl

/-- Page loop on a scripted page sequence whose non-final pages are exactly
full (50 items) and whose final page is no longer than a full page: the
loop returns the accumulator extended by the first `n * 50` scripted items.
This covers natural exhaustion by a short page, exhaustion of the fuel
given by the requested total, and a mid-sequence no-result (the 404 past
the end of the script), under which the accumulated items are kept. -/
theorem tracks_go_pages :
    ∀ (n : Nat) (pages : List (List Json)) (ev : Nat → NetEvent) (i : Nat) (acc : List Json),
      (∀ j, ev (i + j) = tracksPagesEv pages j) →
      (∀ j xs, j + 1 < pages.length → pages.get? j = some xs → xs.length = 50) →
      (∀ j xs, pages.get? j = some xs → xs.length ≤ 50) →
      ∃ k, tracks_go ev i acc n = .ok (acc ++ pages.flatten.take (n * 50), k) := by
  intro n
  induction n with
  | zero =>
      intro pages ev i acc hev hfull hlast
      exact ⟨i, by simp [tracks_go]⟩
  | succ n ih =>
      intro pages ev i acc hev hfull hlast
      cases pages with
      | nil =>
          have h0 : ev i = .success ⟨404, none, Json.null⟩ := by
            have := hev 0
            simpa [tracksPagesEv] using this
          refine ⟨i + 1, ?_⟩
          rw [tracks_go_eq, safe_request_404 ev i h0]
          simp
      | cons p rest =>
          have h0 : ev i = .success ⟨200, none,
              Json.obj [("tracks", Json.obj [("items", Json.arr p)])]⟩ := by
            have := hev 0
            simpa [tracksPagesEv] using this
          have hstep : tracks_go ev i acc (n + 1)
              = if pyTruthy (Json.arr p) = false
                then (.ok (acc, i + 1) : Except PyErr (List Json × Nat))
                else if p.length < 50 then .ok (acc ++ p, i + 1)
                else tracks_go ev (i + 1) (acc ++ p) n := by
            rw [tracks_go_eq, safe_request_200 ev i _ h0]
            rfl
          cases p with
          | nil =>
              have hrest : rest = [] := by
                cases rest with
                | nil => rfl
                | cons q qs =>
                    have := hfull 0 [] (by simp only [List.length_cons]; omega) rfl
                    simp at this
              subst hrest
              refine ⟨i + 1, ?_⟩
              rw [hstep]
              simp [pyTruthy]
          | cons x xs =>
              have htru : ¬ pyTruthy (Json.arr (x :: xs)) = false := by
                simp [pyTruthy]
              by_cases hlen : (x :: xs).length < 50
              · have hrest : rest = [] := by
                  cases rest with
                  | nil => rfl
                  | cons q qs =>
                      have h50 := hfull 0 (x :: xs) (by simp only [List.length_cons]; omega) rfl
                      simp only [List.length_cons] at h50 hlen
                      omega
                subst hrest
                refine ⟨i + 1, ?_⟩
                rw [hstep, if_neg htru, if_pos hlen]
                have hle : (x :: xs).length ≤ (n + 1) * 50 := by
                  have := hlast 0 (x :: xs) rfl
                  simp only [List.length_cons] at this ⊢
                  omega
                simp [List.take_of_length_le hle]
              · have h50 : (x :: xs).length = 50 := by
                  have := hlast 0 (x :: xs) rfl
                  simp only [List.length_cons] at this hlen ⊢
                  omega
                obtain ⟨k, hk⟩ := ih rest ev (i + 1) (acc ++ (x :: xs))
                  (by
                    intro j
                    have hj := hev (j + 1)
                    rw [show i + (j + 1) = i + 1 + j by omega] at hj
                    rw [hj]
                    simp [tracksPagesEv])
                  (by
                    intro j ys hj hy
                    exact hfull (j + 1) ys
                      (by simp only [List.length_cons]; omega) (by simpa using hy))
                  (by
                    intro j ys hy
                    exact hlast (j + 1) ys (by simpa using hy))
                refine ⟨k, ?_⟩
                rw [hstep, if_neg htru, if_neg hlen, hk]
                rw [List.append_assoc]
                congr 1
                rw [List.flatten_cons, List.take_append_eq_append_take,
                  List.take_of_length_le (by rw [h50]; omega : (x :: xs).length ≤ (n + 1) * 50),
                  h50, (by omega : (n + 1) * 50 - 50 = n * 50)]

/-- Extraction of the (name, id) pairs from a page of category items. -/
theorem catPairs_mapM (p : List (String × String)) :
    List.mapM (fun it => do
        let nm ← pySubscrKey it "name"
        let idv ← pySubscrKey it "id"
        pure (nm, idv))
      (p.map (fun pr => Json.obj [("name", Json.str pr.1), ("id", Json.str pr.2)]))
      = Except.ok (p.map (fun pr => (Json.str pr.1, Json.str pr.2))) := by
  induction p with
  | nil => rfl
  | cons x xs ih =>
      simp only [List.map_cons, List.mapM_cons, ih]
      rfl

/-- Category page loop analogue of `tracks_go_pages`: the loop returns the
accumulator extended by the (name, id) pairs of the first `n * 50`
scripted items. -/
theorem cat_go_pages :
    ∀ (n : Nat) (pages : List (List (String × String))) (ev : Nat → NetEvent)
      (i : Nat) (acc : List (Json × Json)),
      (∀ j, ev (i + j) = catPagesEv pages j) →
      (∀ j xs, j + 1 < pages.length → pages.get? j = some xs → xs.length = 50) →
      (∀ j xs, pages.get? j = some xs → xs.length ≤ 50) →
      ∃ k, cat_go ev i acc n
        = .ok (acc ++ (pages.flatten.map
            (fun pr => (Json.str pr.1, Json.str pr.2))).take (n * 50), k) := by
  intro n
  induction n with
  | zero =>
      intro pages ev i acc hev hfull hlast
      exact ⟨i, by simp [cat_go]⟩
  | succ n ih =>
      intro pages ev i acc hev hfull hlast
      cases pages with
      | nil =>
          have h0 : ev i = .success ⟨404, none, Json.null⟩ := by
            have := hev 0
            simpa [catPagesEv] using this
          refine ⟨i + 1, ?_⟩
          rw [cat_go_eq, safe_request_404 ev i h0]
          simp
      | cons p rest =>
          have h0 : ev i = .success ⟨200, none,
              Json.obj [("categories", Json.obj [("items",
                Json.arr (p.map (fun pr => Json.obj
                  [("name", .str pr.1), ("id", .str pr.2)])))])]⟩ := by
            have := hev 0
            simpa [catPagesEv] using this
          have hstep0 : cat_go ev i acc (n + 1)
              = if pyTruthy (Json.arr (p.map (fun pr => Json.obj
                    [("name", .str pr.1), ("id", .str pr.2)]))) = false
                then (.ok (acc, i + 1) : Except PyErr (List (Json × Json) × Nat))
                else (List.mapM (fun it => do
                        let nm ← pySubscrKey it "name"
                        let idv ← pySubscrKey it "id"
                        pure (nm, idv))
                      (p.map (fun pr : String × String => Json.obj
                        [("name", .str pr.1), ("id", .str pr.2)]))).bind
                  (fun prs =>
                    if (p.map (fun pr : String × String => Json.obj
                        [("name", .str pr.1), ("id", .str pr.2)])).length < 50
                    then .ok (acc ++ prs, i + 1)
                    else cat_go ev (i + 1) (acc ++ prs) n) := by
            rw [cat_go_eq, safe_request_200 ev i _ h0]
            rfl
          have hstep : cat_go ev i acc (n + 1)
              = if pyTruthy (Json.arr (p.map (fun pr => Json.obj
                    [("name", .str pr.1), ("id", .str pr.2)]))) = false
                then (.ok (acc, i + 1) : Except PyErr (List (Json × Json) × Nat))
                else if (p.map (fun pr => Json.obj
                    [("name", .str pr.1), ("id", .str pr.2)])).length < 50
                then .ok (acc ++ p.map (fun pr => (Json.str pr.1, Json.str pr.2)), i + 1)
                else cat_go ev (i + 1)
                  (acc ++ p.map (fun pr => (Json.str pr.1, Json.str pr.2))) n := by
            rw [hstep0, catPairs_mapM p]
            rfl
          cases p with
          | nil =>
              have hrest : rest = [] := by
                cases rest with
                | nil => rfl
                | cons q qs =>
                    have := hfull 0 [] (by simp only [List.length_cons]; omega) rfl
                    simp at this
              subst hrest
              refine ⟨i + 1, ?_⟩
              rw [hstep]
              simp [pyTruthy]
          | cons x xs =>
              have htru : ¬ pyTruthy (Json.arr ((x :: xs).map (fun pr => Json.obj
                  [("name", .str pr.1), ("id", .str pr.2)]))) = false := by
                simp [pyTruthy]
              by_cases hlen : ((x :: xs).map (fun pr => Json.obj
                  [("name", .str pr.1), ("id", .str pr.2)])).length < 50
              · have hrest : rest = [] := by
                  cases rest with
                  | nil => rfl
                  | cons q qs =>
                      have h50 := hfull 0 (x :: xs) (by simp only [List.length_cons]; omega) rfl
                      simp only [List.length_map, List.length_cons] at h50 hlen
                      omega
                subst hrest
                refine ⟨i + 1, ?_⟩
                rw [hstep, if_neg htru, if_pos hlen]
                have hle : ((x :: xs).map (fun pr =>
                    (Json.str pr.1, Json.str pr.2))).length ≤ (n + 1) * 50 := by
                  have := hlast 0 (x :: xs) rfl
                  simp only [List.length_map, List.length_cons] at this ⊢
                  omega
                simp only [List.flatten_cons, List.flatten_nil, List.append_nil]
                rw [List.take_of_length_le hle]
              · have h50 : (x :: xs).length = 50 := by
                  have := hlast 0 (x :: xs) rfl
                  simp only [List.length_map, List.length_cons] at this hlen ⊢
                  omega
                obtain ⟨k, hk⟩ := ih rest ev (i + 1)
                  (acc ++ (x :: xs).map (fun pr => (Json.str pr.1, Json.str pr.2)))
                  (by
                    intro j
                    have hj := hev (j + 1)
                    rw [show i + (j + 1) = i + 1 + j by omega] at hj
                    rw [hj]
                    simp [catPagesEv])
                  (by
                    intro j ys hj hy
                    exact hfull (j + 1) ys
                      (by simp only [List.length_cons]; omega) (by simpa using hy))
                  (by
                    intro j ys hy
                    exact hlast (j + 1) ys (by simpa using hy))
                refine ⟨k, ?_⟩
                rw [hstep, if_neg htru, if_neg hlen, hk]
                rw [List.append_assoc]
                congr 1
                simp only [List.flatten_cons, List.map_append]
                rw [List.take_append_eq_append_take,
                  List.take_of_length_le (by
                    simp only [List.length_map]
                    rw [h50]
                    omega : ((x :: xs).map (fun pr =>
                      (Json.str pr.1, Json.str pr.2))).length ≤ (n + 1) * 50),
                  (by
                    simp only [List.length_map]
                    rw [h50] : (n + 1) * 50 - ((x :: xs).map (fun pr =>
                      (Json.str pr.1, Json.str pr.2))).length = (n + 1) * 50 - 50),
                  (by omega : (n + 1) * 50 - 50 = n * 50)]

/-- The requested total never exceeds the fuel times the page size. -/
theorem le_numPages_mul (total : Nat) : total ≤ numPages total * 50 := by
  unfold numPages
  omega

/-- C4: on any scripted page sequence whose non-final pages hold exactly
the page size (50) and whose final page holds at most that, both Paginated
Collectors return exactly the concatenation of the scripted pages truncated
to the requested total (the categories collector additionally extracts the
(name, id) pair of each item). A request past the end of the script is
answered 404, on which the Fetcher yields no result, so the same statement
covers a mid-sequence no-result: the items accumulated before it are kept
and returned. -/
theorem C4_paginated_collector :
    (∀ (pages : List (List Json)) (token genre : Json) (market : Option Json) (total : Nat),
      (∀ j xs, j + 1 < pages.length → pages.get? j = some xs → xs.length = 50) →
      (∀ j xs, pages.get? j = some xs → xs.length ≤ 50) →
      ∃ k, fetch_genre_tracks (tracksPagesEv pages) token genre market total 0
          = .ok (pages.flatten.take total, k)) ∧
    (∀ (pages : List (List (String × String))) (token : Json) (total : Nat),
      (∀ j xs, j + 1 < pages.length → pages.get? j = some xs → xs.length = 50) →
      (∀ j xs, pages.get? j = some xs → xs.length ≤ 50) →
      ∃ k, get_all_categories (catPagesEv pages) token total 0
          = .ok ((pages.flatten.map
              (fun pr => (Json.str pr.1, Json.str pr.2))).take total, k)) := by
  constructor
  · intro pages token genre market total hfull hlast
    obtain ⟨k, hk⟩ := tracks_go_pages (numPages total) pages (tracksPagesEv pages) 0 []
      (fun j => by simp) hfull hlast
    refine ⟨k, ?_⟩
    unfold fetch_genre_tracks
    rw [hk]
    show Except.ok ((([] : List Json)
        ++ pages.flatten.take (numPages total * 50)).take total, k) = _
    rw [List.nil_append, List.take_take, Nat.min_eq_left (le_numPages_mul total)]
  · intro pages token total hfull hlast
    obtain ⟨k, hk⟩ := cat_go_pages (numPages total) pages (catPagesEv pages) 0 []
      (fun j => by simp) hfull hlast
    refine ⟨k, ?_⟩
    unfold get_all_categories
    rw [hk]
    show Except.ok ((([] : List (Json × Json))
        ++ (pages.flatten.map
          (fun pr => (Json.str pr.1, Json.str pr.2))).take (numPages total * 50)).take total, k)
      = _
    rw [List.nil_append, List.take_take, Nat.min_eq_left (le_numPages_mul total)]

/-- Witness for C4 at concrete scripts: one short track page of two items
with requested total 1 (truncation), and one short category page with
requested total 5 (natural exhaustion). -/
theorem C4_paginated_collector_witness :
    (∃ k, fetch_genre_tracks (tracksPagesEv [[Json.num 1, Json.num 2]])
        Json.null Json.null none 1 0 = .ok ([Json.num 1], k)) ∧
    (∃ k, get_all_categories (catPagesEv [[("Rock", "c1")]]) Json.null 5 0
        = .ok ([(Json.str "Rock", Json.str "c1")], k)) := by
  constructor
  · obtain ⟨k, hk⟩ := C4_paginated_collector.1 [[Json.num 1, Json.num 2]]
      Json.null Json.null none 1
      (by
        intro j xs hj hx
        simp only [List.length_cons, List.length_nil] at hj
        omega)
      (by
        intro j xs hx
        cases j with
        | zero =>
            simp only [List.get?] at hx
            cases hx
            decide
        | succ j => simp [List.get?] at hx)
    exact ⟨k, hk⟩
  · obtain ⟨k, hk⟩ := C4_paginated_collector.2 [[("Rock", "c1")]] Json.null 5
      (by
        intro j xs hj hx
        simp only [List.length_cons, List.length_nil] at hj
        omega)
      (by
        intro j xs hx
        cases j with
        | zero =>
            simp only [List.get?] at hx
            cases hx
            decide
        | succ j => simp [List.get?] at hx)
    exact ⟨k, hk⟩

/-! ### Aggregator lemmas (claim C5) -/

/-- A track as the data model describes it: an ordered artist list and an
integer popularity. -/
structure TrackR where
  artists : List String
  popularity : Int
deriving Repr, DecidableEq

/-- JSON encoding of a `TrackR` as the search endpoint returns it. -/
def encodeTrack (t : TrackR) : Json :=
  Json.obj [("artists", Json.arr (t.artists.map (fun a => Json.obj [("name", Json.str a)]))),
            ("popularity", Json.num t.popularity)]

/-- Specification-side accumulation step, restating section 4.4 of the
specification: a track with no listed artist is skipped, otherwise its
popularity is added to the running total of its first-listed artist, new
artists entering at the end (first-encounter order). -/
def specAddScore (acc : List (String × Int)) (a : String) (pop : Int) : List (String × Int) :=
  match acc.lookup a with
  | some v => dictSet acc a (v + pop)
  | none => acc ++ [(a, pop)]

/-- Specification-side per-track step. -/
def specStep (acc : List (String × Int)) (t : TrackR) : List (String × Int) :=
  match t.artists with
  | [] => acc
  | a :: _ => specAddScore acc a t.popularity

/-- Specification-side per-artist totals in first-encounter order. -/
def specArtistTotals (ts : List TrackR) : List (String × Int) :=
  ts.foldl specStep []

/-- String-keyed scores viewed as the JSON-keyed dict the code builds. -/
def toJScores (l : List (String × Int)) : List (Json × Int) :=
  l.map (fun p => (Json.str p.1, p.2))

/-- Total popularity of the tracks whose primary artist is `a`. -/
def matchPop (a : String) (ts : List TrackR) : Int :=
  ((ts.filter (fun t => t.artists.head? == some a)).map TrackR.popularity).sum

/-- Setting a key makes it the value found by lookup. -/
theorem lookup_dictSet_self {α β : Type} [BEq α] [LawfulBEq α]
    (d : List (α × β)) (k : α) (v : β) : (dictSet d k v).lookup k = some v := by
  induction d with
  | nil => simp [dictSet, List.lookup]
  | cons p d ih =>
      unfold dictSet
      by_cases hp : (p.1 == k) = true
      · rw [if_pos hp]
        have : k == p.1 := by
          rw [beq_iff_eq] at hp ⊢
          exact hp.symm
        simp [List.lookup, this]
      · rw [if_neg hp]
        have hp2 : (p.1 == k) = false := by
          rw [Bool.eq_false_iff]
          exact hp
        have : (k == p.1) = false := by
          rw [beq_eq_false_iff_ne] at hp2 ⊢
          exact fun h => hp2 h.symm
        simp [List.lookup, this, ih]

/-- Setting one key leaves lookups of other keys unchanged. -/
theorem lookup_dictSet_ne {α β : Type} [BEq α] [LawfulBEq α]
    (d : List (α × β)) (k a : α) (v : β) (h : ¬ a = k) :
    (dictSet d k v).lookup a = d.lookup a := by
  induction d with
  | nil =>
      have : (a == k) = false := beq_eq_false_iff_ne.mpr h
      simp [dictSet, List.lookup, this]
  | cons p d ih =>
      unfold dictSet
      by_cases hp : (p.1 == k) = true
      · rw [if_pos hp]
        rw [beq_iff_eq] at hp
        by_cases hap : (a == p.1) = true
        · rw [beq_iff_eq] at hap
          exact absurd (hap.trans hp) h
        · have hap2 : (a == p.1) = false := by
            rw [Bool.eq_false_iff]
            exact hap
          simp [List.lookup, hap2]
      · rw [if_neg hp]
        by_cases hap : (a == p.1) = true
        · simp [List.lookup, hap]
        · have hap2 : (a == p.1) = false := by
            rw [Bool.eq_false_iff]
            exact hap
          simp [List.lookup, hap2, ih]

/-- Lookup in the JSON view of a string-keyed dict. -/
theorem lookup_toJScores (l : List (String × Int)) (a : String) :
    (toJScores l).lookup (Json.str a) = l.lookup a := by
  induction l with
  | nil => rfl
  | cons p l ih =>
      show (((Json.str p.1, p.2)) :: toJScores l).lookup (Json.str a) = _
      by_cases hap : (a == p.1) = true
      · have h1 : (Json.str a == Json.str p.1) = true := hap
        simp [List.lookup, h1, hap]
      · have hap2 : (a == p.1) = false := by
          rw [Bool.eq_false_iff]
          exact hap
        have h1 : (Json.str a == Json.str p.1) = false := hap2
        simp [List.lookup, h1, hap2, ih]

/-- Setting a key commutes with the JSON view. -/
theorem dictSet_toJScores (l : List (String × Int)) (a : String) (v : Int) :
    dictSet (toJScores l) (Json.str a) v = toJScores (dictSet l a v) := by
  induction l with
  | nil => rfl
  | cons p l ih =>
      show dictSet ((Json.str p.1, p.2) :: toJScores l) (Json.str a) v = _
      by_cases hp : (p.1 == a) = true
      · have h1 : (Json.str p.1 == Json.str a) = true := hp
        simp [dictSet, h1, hp, toJScores]
      · have hp2 : (p.1 == a) = false := by
          rw [Bool.eq_false_iff]
          exact hp
        have h1 : (Json.str p.1 == Json.str a) = false := hp2
        simp only [dictSet, h1, hp2, Bool.false_eq_true, if_false, ih]
        rfl

/-- One encoded track advances the defaultdict exactly as the
specification-side step advances the string-keyed totals. -/
theorem artistStep_encode (acc : List (String × Int)) (t : TrackR) :
    artistStep (toJScores acc) (encodeTrack t)
      = .ok (toJScores (specStep acc t)) := by
  cases hart : t.artists with
  | nil =>
      unfold artistStep encodeTrack specStep
      rw [hart]
      rfl
  | cons b rest =>
      have h1 : artistStep (toJScores acc) (encodeTrack t)
          = dAdd (toJScores acc) (Json.str b) (Json.num t.popularity) := by
        unfold artistStep encodeTrack
        rw [hart]
        rfl
      have h2 : specStep acc t = specAddScore acc b t.popularity := by
        unfold specStep
        rw [hart]
      rw [h1, h2]
      unfold dAdd specAddScore
      rw [lookup_toJScores]
      cases hl : acc.lookup b with
      | some v =>
          show Except.ok (dictSet (toJScores acc) (Json.str b) (v + t.popularity))
              = Except.ok (toJScores (dictSet acc b (v + t.popularity)))
          rw [dictSet_toJScores]
      | none =>
          show Except.ok (toJScores acc ++ [(Json.str b, 0 + t.popularity)])
              = Except.ok (toJScores (acc ++ [(b, t.popularity)]))
          rw [Int.zero_add]
          simp [toJScores]

/-- The accumulation loop on encoded tracks computes exactly the
specification-side totals. -/
theorem artistScores_encode (ts : List TrackR) :
    artistScores (ts.map encodeTrack) = .ok (toJScores (specArtistTotals ts)) := by
  unfold artistScores specArtistTotals
  have hgen : ∀ (us : List TrackR) (acc : List (String × Int)),
      List.foldlM artistStep (toJScores acc) (us.map encodeTrack)
        = .ok (toJScores (us.foldl specStep acc)) := by
    intro us
    induction us with
    | nil => intro acc; rfl
    | cons t us ih =>
        intro acc
        show (artistStep (toJScores acc) (encodeTrack t)).bind _ = _
        rw [artistStep_encode]
        show List.foldlM artistStep (toJScores (specStep acc t)) (us.map encodeTrack) = _
        exact ih (specStep acc t)
  exact hgen ts []

/-- Inserting into the descending sort permutes only. -/
theorem insDesc_perm {α : Type} (x : α × Int) (l : List (α × Int)) :
    List.Perm (insDesc x l) (x :: l) := by
  induction l with
  | nil => exact List.Perm.refl _
  | cons y ys ih =>
      unfold insDesc
      split
      · exact List.Perm.refl _
      · exact List.Perm.trans (List.Perm.cons y ih) (List.Perm.swap x y ys)

/-- The descending sort is a permutation of its input. -/
theorem pySortDesc_perm {α : Type} (l : List (α × Int)) : List.Perm (pySortDesc l) l := by
  induction l with
  | nil => exact List.Perm.refl _
  | cons x xs ih =>
      exact List.Perm.trans (insDesc_perm x (pySortDesc xs)) (List.Perm.cons x ih)

/-- Insertion preserves the descending order. -/
theorem insDesc_sorted {α : Type} (x : α × Int) (l : List (α × Int))
    (h : List.Pairwise (fun a b : α × Int => b.2 ≤ a.2) l) :
    List.Pairwise (fun a b : α × Int => b.2 ≤ a.2) (insDesc x l) := by
  induction l with
  | nil => simp [insDesc]
  | cons y ys ih =>
      rcases List.pairwise_cons.mp h with ⟨hy, hys⟩
      unfold insDesc
      split
      · rename_i hc
        refine List.pairwise_cons.mpr ⟨?_, h⟩
        intro b hb
        rcases List.mem_cons.mp hb with rfl | hb2
        · exact hc
        · exact le_trans (hy b hb2) hc
      · rename_i hc
        refine List.pairwise_cons.mpr ⟨?_, ih hys⟩
        intro b hb
        have hmem : b = x ∨ b ∈ ys := by
          have := (insDesc_perm x ys).mem_iff.mp hb
          simpa using this
        rcases hmem with rfl | hb2
        · omega
        · exact hy b hb2

/-- The result of `pySortDesc` is sorted by descending score. -/
theorem pySortDesc_sorted {α : Type} (l : List (α × Int)) :
    List.Pairwise (fun a b : α × Int => b.2 ≤ a.2) (pySortDesc l) := by
  induction l with
  | nil => simp [pySortDesc]
  | cons x xs ih => exact insDesc_sorted x (pySortDesc xs) ih

/-- Insertion leaves the subsequence of any fixed score unchanged, except
that an element of that score enters at its front: the sort is stable. -/
theorem insDesc_filter {α : Type} (x : α × Int) (l : List (α × Int)) (c : Int) :
    (insDesc x l).filter (fun p => p.2 == c)
      = if (x.2 == c) = true then x :: l.filter (fun p => p.2 == c)
        else l.filter (fun p => p.2 == c) := by
  induction l with
  | nil =>
      by_cases hxc : (x.2 == c) = true
      · simp [insDesc, List.filter, hxc]
      · simp only [Bool.not_eq_true] at hxc
        simp [insDesc, List.filter, hxc]
  | cons y ys ih =>
      unfold insDesc
      split
      · by_cases hxc : (x.2 == c) = true
        · simp [List.filter_cons, hxc]
        · simp only [Bool.not_eq_true] at hxc
          simp [List.filter_cons, hxc]
      · rename_i hc
        by_cases hxc : (x.2 == c) = true
        · have hyc : (y.2 == c) = false := by
            rw [beq_iff_eq] at hxc
            rw [beq_eq_false_iff_ne]
            omega
          simp [List.filter_cons, hyc, ih, hxc]
        · simp only [Bool.not_eq_true] at hxc
          simp [List.filter_cons, ih, hxc]

/-- Stability of the descending sort: for every score, the elements holding
that score appear in the output in their input order. -/
theorem pySortDesc_filter {α : Type} (l : List (α × Int)) (c : Int) :
    (pySortDesc l).filter (fun p => p.2 == c) = l.filter (fun p => p.2 == c) := by
  induction l with
  | nil => rfl
  | cons x xs ih =>
      show (insDesc x (pySortDesc xs)).filter _ = _
      rw [insDesc_filter, ih]
      by_cases hxc : (x.2 == c) = true
      · simp [List.filter_cons, hxc]
      · simp only [Bool.not_eq_true] at hxc
        simp [List.filter_cons, hxc]

/-- Lookup after appending a single new key. -/
theorem lookup_append_single {α β : Type} [BEq α] [LawfulBEq α]
    (l : List (α × β)) (k a : α) (v : β) :
    (l ++ [(k, v)]).lookup a
      = match l.lookup a with
        | some w => some w
        | none => if (a == k) = true then some v else none := by
  induction l with
  | nil =>
      simp only [List.nil_append, List.lookup]
      cases h : a == k <;> simp [h]
  | cons p l ih =>
      by_cases hap : (a == p.1) = true
      · simp [List.lookup, hap]
      · have hap2 : (a == p.1) = false := by
          rw [Bool.eq_false_iff]
          exact hap
        simp [List.lookup, hap2, ih]

/-- The specification-side totals assign every artist exactly the summed
popularity of the tracks whose primary artist it is, and no score to any
other name. -/
theorem specArtistTotals_lookup (ts : List TrackR) (a : String) :
    (specArtistTotals ts).lookup a
      = if ts.any (fun t => t.artists.head? == some a)
        then some (matchPop a ts) else none := by
  have hgen : ∀ (us : List TrackR) (acc : List (String × Int)),
      (us.foldl specStep acc).lookup a
        = match acc.lookup a with
          | some v => some (v + matchPop a us)
          | none => if us.any (fun t => t.artists.head? == some a)
                    then some (matchPop a us) else none := by
    intro us
    induction us with
    | nil =>
        intro acc
        cases h : acc.lookup a with
        | some v => simp [matchPop, h]
        | none => simp [matchPop, h]
    | cons t us ih =>
        intro acc
        cases hart : t.artists with
        | nil =>
            have hstep : specStep acc t = acc := by
              unfold specStep
              rw [hart]
            have hmatch : (t.artists.head? == some a) = false := by
              rw [hart]
              rfl
            show ((t :: us).foldl specStep acc).lookup a = _
            rw [List.foldl_cons, hstep, ih acc]
            have hm : matchPop a (t :: us) = matchPop a us := by
              unfold matchPop
              rw [List.filter_cons, hmatch]
              simp
            have ha : (t :: us).any (fun t => t.artists.head? == some a)
                = us.any (fun t => t.artists.head? == some a) := by
              rw [List.any_cons, hmatch]
              simp
            rw [hm, ha]
        | cons b rest =>
            have hstep : specStep acc t = specAddScore acc b t.popularity := by
              unfold specStep
              rw [hart]
            show ((t :: us).foldl specStep acc).lookup a = _
            rw [List.foldl_cons, hstep, ih (specAddScore acc b t.popularity)]
            by_cases hba : b = a
            · subst hba
              have hmatch : (t.artists.head? == some b) = true := by
                rw [hart]
                simp
              have hm : matchPop b (t :: us) = t.popularity + matchPop b us := by
                unfold matchPop
                rw [List.filter_cons, hmatch]
                simp
              have ha : (t :: us).any (fun t => t.artists.head? == some b) = true := by
                rw [List.any_cons, hmatch]
                simp
              rw [hm, ha]
              unfold specAddScore
              cases hl : acc.lookup b with
              | some v =>
                  simp only [lookup_dictSet_self]
                  rw [Int.add_assoc]
              | none =>
                  simp only []
                  rw [lookup_append_single, hl]
                  simp
            · have hmatch : (t.artists.head? == some a) = false := by
                rw [hart]
                simp only [List.head?_cons]
                rw [beq_eq_false_iff_ne]
                intro h
                exact hba (Option.some.inj h)
              have hm : matchPop a (t :: us) = matchPop a us := by
                unfold matchPop
                rw [List.filter_cons, hmatch]
                simp
              have ha : (t :: us).any (fun t => t.artists.head? == some a)
                  = us.any (fun t => t.artists.head? == some a) := by
                rw [List.any_cons, hmatch]
                simp
              have hkeep : (specAddScore acc b t.popularity).lookup a = acc.lookup a := by
                unfold specAddScore
                cases hl : acc.lookup b with
                | some v => exact lookup_dictSet_ne acc b a (v + t.popularity) (fun h => hba h.symm)
                | none =>
                    rw [lookup_append_single]
                    have : (a == b) = false := beq_eq_false_iff_ne.mpr (fun h => hba h.symm)
                    rw [this]
                    cases acc.lookup a <;> simp
              rw [hm, ha, hkeep]
  unfold specArtistTotals
  rw [hgen ts []]
  rfl

/-- The three example tracks from the specification, as JSON track items. -/
def exampleTracks : List Json :=
  [ Json.obj [("popularity", Json.num 10),
      ("artists", Json.arr [Json.obj [("name", Json.str "A")]])],
    Json.obj [("popularity", Json.num 20),
      ("artists", Json.arr [Json.obj [("name", Json.str "A")]])],
    Json.obj [("popularity", Json.num 5),
      ("artists", Json.arr [Json.obj [("name", Json.str "B")]])] ]

/-- C5: the Aggregator attributes each track to its first-listed artist
(tracks with an empty artist list are skipped), accumulates per-artist
totals in first-encounter order, sorts them by descending total with the
stable sort (equal totals stay in first-encounter order), and truncates to
top-N. Conjuncts: the concrete example from the specification; the
reduction of the source aggregation to the specification-side totals
followed by the stable descending sort and truncation; sortedness;
stability; the length bound; and the per-artist totals being exactly the
summed popularity of each primary artist. -/
theorem C5_aggregator :
    aggregateTop exampleTracks 5 = .ok [(Json.str "A", 30), (Json.str "B", 5)] ∧
    (∀ (tracks : List TrackR) (top_n : Nat),
      aggregateTop (tracks.map encodeTrack) top_n
        = .ok ((pySortDesc (toJScores (specArtistTotals tracks))).take top_n)) ∧
    (∀ l : List (Json × Int),
      List.Pairwise (fun a b : Json × Int => b.2 ≤ a.2) (pySortDesc l)) ∧
    (∀ (l : List (Json × Int)) (c : Int),
      (pySortDesc l).filter (fun p => p.2 == c) = l.filter (fun p => p.2 == c)) ∧
    (∀ (l : List (Json × Int)) (top_n : Nat),
      ((pySortDesc l).take top_n).length ≤ top_n) ∧
    (∀ (tracks : List TrackR) (a : String),
      (specArtistTotals tracks).lookup a
        = if tracks.any (fun t => t.artists.head? == some a)
          then some (matchPop a tracks) else none) := by
  refine ⟨by rfl, ?_, pySortDesc_sorted, pySortDesc_filter, ?_, specArtistTotals_lookup⟩
  · intro tracks top_n
    unfold aggregateTop
    rw [artistScores_encode]
    rfl
  · intro l top_n
    exact List.length_take_le top_n (pySortDesc l)

/-! ### Snapshot Builder lemmas (claims C1, C8, C9, C10) -/

/-- Bind on a successful Except value reduces to the continuation. -/
theorem except_bind_ok {ε α β : Type} (a : α) (f : α → Except ε β) :
    ((Except.ok a : Except ε α) >>= f) = f a := rfl

/-- Bind on a failed Except value propagates the error. -/
theorem except_bind_error {ε α β : Type} (e : ε) (f : α → Except ε β) :
    ((Except.error e : Except ε α) >>= f) = Except.error e := rfl

/-- C9 (amended): the markets fetch is not paginated. It performs exactly
one `safe_request` call (so at most 3 physical requests and no offset
loop), and on success returns the body's `markets` list sliced to
`markets_limit`; in particular the result never exceeds `markets_limit`
but can also be a single short page even when more markets exist. -/
theorem C9_markets_single_call_amended :
    ∀ (ev : Nat → NetEvent) (cfg : Config) (token : Json) (i : Nat)
      (ms : List Json) (k : Nat),
      get_markets ev cfg token i = .ok (ms, k) →
      ms.length ≤ cfg.markets_limit ∧ k = (safe_request ev i).next ∧ k ≤ i + 3 := by
  intro ev cfg token i ms k h
  unfold get_markets at h
  dsimp only at h
  cases hres : (safe_request ev i).res with
  | error e =>
      rw [hres] at h
      simp at h
  | ok o =>
      cases o with
      | none =>
          rw [hres] at h
          simp only [Except.ok.injEq, Prod.mk.injEq] at h
          refine ⟨?_, ?_, ?_⟩
          · rw [← h.1]
            simp
          · exact h.2.symm
          · rw [← h.2]
            exact sr_go_next_le ev 3 i
      | some r =>
          rw [hres] at h
          dsimp only at h
          cases hg : pyGetD r.body "markets" (Json.arr []) with
          | error e =>
              rw [hg, except_bind_error] at h
              simp at h
          | ok m0 =>
              rw [hg, except_bind_ok] at h
              cases ht : pyToList m0 with
              | error e =>
                  rw [ht, except_bind_error] at h
                  simp at h
              | ok xs =>
                  rw [ht, except_bind_ok] at h
                  simp only [Except.ok.injEq, Prod.mk.injEq] at h
                  refine ⟨?_, ?_, ?_⟩
                  · rw [← h.1]
                    exact List.length_take_le _ _
                  · exact h.2.symm
                  · rw [← h.2]
                    exact sr_go_next_le ev 3 i

/-- Witness for C9: a successful markets response of two markets under a
limit of 10. -/
theorem C9_markets_single_call_amended_witness :
    ([Json.str "US", Json.str "GB"] : List Json).length ≤ (10 : Nat) ∧
    (1 : Nat) = (safe_request (evOfList [.success ⟨200, none,
      Json.obj [("markets", Json.arr [Json.str "US", Json.str "GB"])]⟩]) 0).next ∧
    (1 : Nat) ≤ 0 + 3 := by
  exact C9_markets_single_call_amended
    (evOfList [.success ⟨200, none,
      Json.obj [("markets", Json.arr [Json.str "US", Json.str "GB"])]⟩])
    ⟨10, 50, 50, 10, 5⟩ Json.null 0 [Json.str "US", Json.str "GB"] 1 (by rfl)

/-- Network that always answers a full page of 50 markets. -/
def fullMarketsEv : Nat → NetEvent :=
  fun j => .success ⟨200, none,
    Json.obj [("markets", Json.arr (List.replicate 50 (Json.str "XX")))]⟩

/-- C9 counterexample: with `markets_limit = 200` and a network holding an
inexhaustible supply of full 50-market pages, `get_markets` returns the 50
markets of the single page it requested, after exactly one request — a
paginated collector accumulating pages `0, 50, 100, …` up to the cap would
have returned 200. -/
theorem C9_counterexample :
    get_markets fullMarketsEv ⟨200, 50, 50, 10, 5⟩ Json.null 0
        = .ok (List.replicate 50 (Json.str "XX"), 1) ∧
    (List.replicate 50 (Json.str "XX") : List Json).length = 50 := by
  exact ⟨by rfl, by simp⟩

/-- C8: the Snapshot Builder aborts before producing any output when setup
fails. If `get_token` raises, the run propagates the exception and writes
nothing; if the token is falsy, `main` returns without writing; and if the
markets fetch returns the empty list, `main` returns without writing. The
snapshot write is the final statement of `main`, so every run yields
either no snapshot at all or the complete one (`Except.ok (some _)`). -/
theorem C8_setup_abort :
    (∀ (ev : Nat → NetEvent) (cfg : Config) (e : PyErr),
      get_token ev 0 = .error e → main ev cfg = .error e) ∧
    (∀ (ev : Nat → NetEvent) (cfg : Config) (tok : Json) (i1 : Nat),
      get_token ev 0 = .ok (tok, i1) → pyTruthy tok = false →
      main ev cfg = .ok none) ∧
    (∀ (ev : Nat → NetEvent) (cfg : Config) (tok : Json) (i1 : Nat)
      (cats : List (Json × Json)) (i2 : Nat) (gsc : List (Json × Int)) (i3 i4 : Nat),
      get_token ev 0 = .ok (tok, i1) → pyTruthy tok = true →
      get_all_categories ev tok cfg.genres_limit i1 = .ok (cats, i2) →
      globalScoresLoop ev cfg tok cats [] i2 = .ok (gsc, i3) →
      get_markets ev cfg tok i3 = .ok ([], i4) →
      main ev cfg = .ok none) := by
  refine ⟨?_, ?_, ?_⟩
  · intro ev cfg e h1
    unfold main
    rw [h1, except_bind_error]
  · intro ev cfg tok i1 h1 h2
    unfold main
    rw [h1, except_bind_ok]
    dsimp only
    rw [h2]
    rfl
  · intro ev cfg tok i1 cats i2 gsc i3 i4 h1 h2 h3 h4 h5
    unfold main
    rw [h1, except_bind_ok]
    dsimp only
    rw [h2, if_neg (by decide : ¬ true = false), h3, except_bind_ok]
    dsimp only
    rw [h4, except_bind_ok]
    dsimp only
    rw [h5, except_bind_ok]
    rfl

/-- Witness for C8 at concrete scripts: a token request that is answered
404 (no token), and a run whose markets request is answered with an empty
markets list. -/
theorem C8_setup_abort_witness :
    main (evOfList []) ⟨10, 50, 50, 10, 5⟩ = .ok none ∧
    main (evOfList [.success ⟨200, none, Json.obj [("access_token", Json.str "tok")]⟩,
      .success ⟨404, none, Json.null⟩,
      .success ⟨200, none, Json.obj [("markets", Json.arr [])]⟩])
      ⟨10, 50, 50, 10, 5⟩ = .ok none := by
  constructor
  · exact C8_setup_abort.2.1 (evOfList []) ⟨10, 50, 50, 10, 5⟩ Json.null 1 (by rfl) (by rfl)
  · exact C8_setup_abort.2.2
      (evOfList [.success ⟨200, none, Json.obj [("access_token", Json.str "tok")]⟩,
        .success ⟨404, none, Json.null⟩,
        .success ⟨200, none, Json.obj [("markets", Json.arr [])]⟩])
      ⟨10, 50, 50, 10, 5⟩ (Json.str "tok") 1 [] 2 [] 2 3
      (by rfl) (by rfl) (by rfl) (by rfl) (by rfl)

/-- Pure value of Except written as its constructor. -/
theorem except_pure {ε α : Type} (a : α) : (pure a : Except ε α) = Except.ok a := rfl

/-- Python dict key insertion viewed on the key list: an existing key
leaves the list unchanged, a new key enters at the end. -/
def pyKeyInsert {α : Type} [BEq α] (ks : List α) (k : α) : List α :=
  if ks.any (fun x => x == k) then ks else ks ++ [k]

/-- Setting a dict key acts on the key list as `pyKeyInsert`. -/
theorem map_fst_dictSet {α β : Type} [BEq α] (d : List (α × β)) (k : α) (v : β) :
    (dictSet d k v).map Prod.fst = pyKeyInsert (d.map Prod.fst) k := by
  induction d with
  | nil => simp [dictSet, pyKeyInsert]
  | cons p d ih =>
      unfold dictSet
      by_cases hp : (p.1 == k) = true
      · rw [if_pos hp]
        unfold pyKeyInsert
        simp [hp]
      · have hp2 : (p.1 == k) = false := by
          rw [Bool.eq_false_iff]
          exact hp
        rw [if_neg hp, List.map_cons, List.map_cons, ih]
        unfold pyKeyInsert
        rw [List.any_cons]
        simp only [hp2, Bool.false_or]
        by_cases hA : ((d.map Prod.fst).any (fun x => x == k)) = true
        · rw [if_pos hA, if_pos hA]
        · rw [if_neg hA, if_neg hA]
          simp

/-- A value in a dict after a set is the new value or an old entry. -/
theorem mem_dictSet {α β : Type} [BEq α] (d : List (α × β)) (k : α) (v : β) :
    ∀ q ∈ dictSet d k v, q.2 = v ∨ q ∈ d := by
  induction d with
  | nil =>
      intro q hq
      simp only [dictSet, List.mem_singleton] at hq
      left
      rw [hq]
  | cons p d ih =>
      intro q hq
      unfold dictSet at hq
      by_cases hp : (p.1 == k) = true
      · rw [if_pos hp] at hq
        rcases List.mem_cons.mp hq with rfl | hq2
        · left; rfl
        · right; exact List.mem_cons_of_mem p hq2
      · rw [if_neg hp] at hq
        rcases List.mem_cons.mp hq with hq1 | hq2
        · right
          rw [hq1]
          exact List.mem_cons_self p d
        · rcases ih q hq2 with h2 | h2
          · left; exact h2
          · right; exact List.mem_cons_of_mem p h2

/-- Membership after one key insertion. -/
theorem mem_pyKeyInsert {α : Type} [BEq α] [LawfulBEq α] (ks : List α) (k a : α) :
    a ∈ pyKeyInsert ks k ↔ a ∈ ks ∨ a = k := by
  unfold pyKeyInsert
  by_cases hA : (ks.any (fun x => x == k)) = true
  · rw [if_pos hA]
    constructor
    · exact Or.inl
    · rintro (h2 | rfl)
      · exact h2
      · rcases List.any_eq_true.mp hA with ⟨x, hx, hxk⟩
        rw [beq_iff_eq] at hxk
        rw [← hxk]
        exact hx
  · rw [if_neg hA]
    simp

/-- Membership in the folded key list: exactly the seeds and the inserted
keys. -/
theorem mem_foldl_pyKeyInsert {α : Type} [BEq α] [LawfulBEq α] (l : List α) :
    ∀ (ks : List α) (a : α), a ∈ l.foldl pyKeyInsert ks ↔ a ∈ ks ∨ a ∈ l := by
  induction l with
  | nil => intro ks a; simp
  | cons x xs ih =>
      intro ks a
      rw [List.foldl_cons, ih, mem_pyKeyInsert]
      simp only [List.mem_cons]
      tauto

/-- The ranking a genre receives never exceeds the requested top-N. -/
theorem aggregateTop_len (tracks : List Json) (top_n : Nat) (out : List (Json × Int))
    (h : aggregateTop tracks top_n = .ok out) : out.length ≤ top_n := by
  unfold aggregateTop at h
  cases ha : artistScores tracks with
  | error e => rw [ha, except_bind_error] at h; simp at h
  | ok scores =>
      rw [ha, except_bind_ok, except_pure] at h
      simp only [Except.ok.injEq] at h
      rw [← h]
      exact List.length_take_le _ _

/-- The artist list returned for a (market, genre) pair has length at most
the requested top-N. -/
theorem fetch_top_artists_len (ev : Nat → NetEvent) (token genre : Json)
    (market : Option Json) (total top_n i : Nat) (arts : List (Json × Int)) (j : Nat)
    (h : fetch_top_artists_for_genre ev token genre market total top_n i = .ok (arts, j)) :
    arts.length ≤ top_n := by
  unfold fetch_top_artists_for_genre at h
  cases hf : fetch_genre_tracks ev token genre market total i with
  | error e => rw [hf, except_bind_error] at h; simp at h
  | ok p =>
      rw [hf, except_bind_ok] at h
      dsimp only at h
      cases ha : aggregateTop p.1 top_n with
      | error e => rw [ha, except_bind_error] at h; simp at h
      | ok arts2 =>
          rw [ha, except_bind_ok, except_pure] at h
          simp only [Except.ok.injEq, Prod.mk.injEq] at h
          rw [← h.1]
          exact aggregateTop_len p.1 top_n arts2 ha

/-- Invariants of the per-market genre loop: both dicts gain exactly the
processed genres as keys (in first-encounter order), and every stored
artist list respects the top-N bound. -/
theorem genreLoop_spec (ev : Nat → NetEvent) (cfg : Config) (token market : Json) :
    ∀ (gs : List Json) (cs : List (Json × Int)) (as2 : List (Json × List (Json × Int)))
      (i : Nat) (cs2 : List (Json × Int)) (as3 : List (Json × List (Json × Int))) (i2 : Nat),
      genreLoop ev cfg token market gs cs as2 i = .ok (cs2, as3, i2) →
      cs.map Prod.fst = as2.map Prod.fst →
      (∀ r ∈ as2, r.2.length ≤ cfg.top_n_artists) →
      (cs2.map Prod.fst = gs.foldl pyKeyInsert (cs.map Prod.fst)
       ∧ as3.map Prod.fst = gs.foldl pyKeyInsert (cs.map Prod.fst)
       ∧ (∀ r ∈ as3, r.2.length ≤ cfg.top_n_artists)) := by
  intro gs
  induction gs with
  | nil =>
      intro cs as2 i cs2 as3 i2 h hk hl
      simp only [genreLoop, Except.ok.injEq, Prod.mk.injEq] at h
      obtain ⟨h1, h2, h3⟩ := h
      subst h1
      subst h2
      exact ⟨rfl, hk.symm, hl⟩
  | cons g gs ih =>
      intro cs as2 i cs2 as3 i2 h hk hl
      simp only [genreLoop] at h
      cases hf : fetch_genre_tracks ev token g (some market) cfg.tracks_per_genre i with
      | error e => rw [hf, except_bind_error] at h; simp at h
      | ok p =>
          rw [hf, except_bind_ok] at h
          cases hs : sumPop p.1 with
          | error e => rw [hs, except_bind_error] at h; simp at h
          | ok score =>
              rw [hs, except_bind_ok] at h
              cases hfa : fetch_top_artists_for_genre ev token g (some market)
                  cfg.tracks_per_genre cfg.top_n_artists p.2 with
              | error e => rw [hfa, except_bind_error] at h; simp at h
              | ok q =>
                  rw [hfa, except_bind_ok] at h
                  have hres := ih (dictSet cs g score) (dictSet as2 g q.1) q.2 cs2 as3 i2 h
                    (by rw [map_fst_dictSet, map_fst_dictSet, hk])
                    (by
                      intro r hr
                      rcases mem_dictSet as2 g q.1 r hr with h2 | h2
                      · rw [h2]
                        exact fetch_top_artists_len ev token g (some market)
                          cfg.tracks_per_genre cfg.top_n_artists p.2 q.1 q.2 (by rw [hfa])
                      · exact hl r h2)
                  obtain ⟨ha, hb, hc⟩ := hres
                  refine ⟨?_, ?_, hc⟩
                  · rw [ha, List.foldl_cons, map_fst_dictSet]
                  · rw [hb, List.foldl_cons, map_fst_dictSet]

/-- Invariants of the market loop: the two result maps always carry the
same key list, gain exactly the processed markets as keys, and every
per-market dict carries exactly the top genres as keys with bounded artist
lists. -/
theorem marketsLoop_spec (ev : Nat → NetEvent) (cfg : Config) (token : Json)
    (top_genres : List Json) :
    ∀ (ms : List Json) (cgp : List (Json × List (Json × Int)))
      (ta : List (Json × List (Json × List (Json × Int)))) (i : Nat)
      (cgp2 : List (Json × List (Json × Int)))
      (ta2 : List (Json × List (Json × List (Json × Int)))) (i2 : Nat),
      marketsLoop ev cfg token top_genres ms cgp ta i = .ok (cgp2, ta2, i2) →
      cgp.map Prod.fst = ta.map Prod.fst →
      (∀ q ∈ cgp, q.2.map Prod.fst = top_genres.foldl pyKeyInsert []) →
      (∀ q ∈ ta, q.2.map Prod.fst = top_genres.foldl pyKeyInsert []) →
      (∀ q ∈ ta, ∀ r ∈ q.2, r.2.length ≤ cfg.top_n_artists) →
      (cgp2.map Prod.fst = ms.foldl pyKeyInsert (cgp.map Prod.fst)
       ∧ ta2.map Prod.fst = ms.foldl pyKeyInsert (cgp.map Prod.fst)
       ∧ (∀ q ∈ cgp2, q.2.map Prod.fst = top_genres.foldl pyKeyInsert [])
       ∧ (∀ q ∈ ta2, q.2.map Prod.fst = top_genres.foldl pyKeyInsert [])
       ∧ (∀ q ∈ ta2, ∀ r ∈ q.2, r.2.length ≤ cfg.top_n_artists)) := by
  intro ms
  induction ms with
  | nil =>
      intro cgp ta i cgp2 ta2 i2 h hk hv1 hv2 hv3
      simp only [marketsLoop, Except.ok.injEq, Prod.mk.injEq] at h
      obtain ⟨h1, h2, h3⟩ := h
      subst h1
      subst h2
      exact ⟨rfl, hk.symm, hv1, hv2, hv3⟩
  | cons m ms ih =>
      intro cgp ta i cgp2 ta2 i2 h hk hv1 hv2 hv3
      simp only [marketsLoop] at h
      cases hg : genreLoop ev cfg token m top_genres [] [] i with
      | error e => rw [hg, except_bind_error] at h; simp at h
      | ok t =>
          rw [hg, except_bind_ok] at h
          have hspec := genreLoop_spec ev cfg token m top_genres [] [] i t.1 t.2.1 t.2.2
            (by rw [hg]) rfl (by intro r hr; simp at hr)
          obtain ⟨hg1, hg2, hg3⟩ := hspec
          have hres := ih (dictSet cgp m t.1) (dictSet ta m t.2.1) t.2.2 cgp2 ta2 i2 h
            (by rw [map_fst_dictSet, map_fst_dictSet, hk])
            (by
              intro q hq
              rcases mem_dictSet cgp m t.1 q hq with h2 | h2
              · rw [h2, hg1]
                rfl
              · exact hv1 q h2)
            (by
              intro q hq
              rcases mem_dictSet ta m t.2.1 q hq with h2 | h2
              · rw [h2, hg2]
                rfl
              · exact hv2 q h2)
            (by
              intro q hq
              rcases mem_dictSet ta m t.2.1 q hq with h2 | h2
              · intro r hr
                rw [h2] at hr
                exact hg3 r hr
              · exact hv3 q h2)
          obtain ⟨ha, hb, hc, hd, he⟩ := hres
          refine ⟨?_, ?_, hc, hd, he⟩
          · rw [ha, List.foldl_cons, map_fst_dictSet]
          · rw [hb, List.foldl_cons, map_fst_dictSet]

/-- Inversion of a successful snapshot run: every stage succeeded, the
markets were nonempty, and the snapshot is assembled from the market loop
results and the selected top genres. -/
theorem main_ok_inversion (ev : Nat → NetEvent) (cfg : Config) (snap : Snapshot)
    (h : main ev cfg = .ok (some snap)) :
    ∃ (tok : Json) (i1 : Nat) (cats : List (Json × Json)) (i2 : Nat)
      (gsc : List (Json × Int)) (i3 : Nat) (ms : List Json) (i4 : Nat)
      (cgp : List (Json × List (Json × Int)))
      (ta : List (Json × List (Json × List (Json × Int)))) (i5 : Nat),
      get_token ev 0 = .ok (tok, i1) ∧ pyTruthy tok = true ∧
      get_all_categories ev tok cfg.genres_limit i1 = .ok (cats, i2) ∧
      globalScoresLoop ev cfg tok cats [] i2 = .ok (gsc, i3) ∧
      get_markets ev cfg tok i3 = .ok (ms, i4) ∧ ms.isEmpty = false ∧
      marketsLoop ev cfg tok (((pySortDesc gsc).take cfg.top_n_genres).map Prod.fst)
        ms [] [] i4 = .ok (cgp, ta, i5) ∧
      snap = ⟨((pySortDesc gsc).take cfg.top_n_genres).map Prod.fst, cgp, ta⟩ := by
  unfold main at h
  cases h1 : get_token ev 0 with
  | error e => rw [h1, except_bind_error] at h; simp at h
  | ok p =>
      rw [h1, except_bind_ok] at h
      dsimp only at h
      cases htok : pyTruthy p.1 with
      | false =>
          rw [htok, if_pos rfl, except_pure] at h
          simp at h
      | true =>
          rw [htok, if_neg (by decide : ¬ true = false)] at h
          cases h3 : get_all_categories ev p.1 cfg.genres_limit p.2 with
          | error e => rw [h3, except_bind_error] at h; simp at h
          | ok pc =>
              rw [h3, except_bind_ok] at h
              cases h4 : globalScoresLoop ev cfg p.1 pc.1 [] pc.2 with
              | error e => rw [h4, except_bind_error] at h; simp at h
              | ok pg =>
                  rw [h4, except_bind_ok] at h
                  cases h5 : get_markets ev cfg p.1 pg.2 with
                  | error e => rw [h5, except_bind_error] at h; simp at h
                  | ok pm =>
                      rw [h5, except_bind_ok] at h
                      cases hme : pm.1.isEmpty with
                      | true =>
                          rw [hme, if_pos rfl, except_pure] at h
                          simp at h
                      | false =>
                          rw [hme, if_neg (by decide : ¬ false = true)] at h
                          cases h7 : marketsLoop ev cfg p.1
                              (((pySortDesc pg.1).take cfg.top_n_genres).map Prod.fst)
                              pm.1 [] [] pm.2 with
                          | error e => rw [h7, except_bind_error] at h; simp at h
                          | ok pt =>
                              rw [h7, except_bind_ok, except_pure] at h
                              simp only [Except.ok.injEq, Option.some.injEq] at h
                              exact ⟨p.1, p.2, pc.1, pc.2, pg.1, pg.2, pm.1, pm.2,
                                pt.1, pt.2.1, pt.2.2, rfl, htok, h3, h4, h5, hme, h7, h.symm⟩

/-- C10: in every snapshot the Builder writes, the two per-market maps
carry identical key lists; every per-market dict in either map has exactly
the selected top-genre list (first-occurrence deduplicated) as its key
list; every stored artist list has length at most `top_n_artists`; and the
common key list is exactly the deduplication of the fetched market list,
so indexing `country_genre_popularity[market][genre]` succeeds for every
market of `top_artists` and every selected genre. -/
theorem C10_snapshot_invariants :
    ∀ (ev : Nat → NetEvent) (cfg : Config) (snap : Snapshot),
      main ev cfg = .ok (some snap) →
      snap.country_genre_popularity.map Prod.fst = snap.top_artists.map Prod.fst ∧
      (∀ q ∈ snap.country_genre_popularity,
        q.2.map Prod.fst = snap.top_genres.foldl pyKeyInsert []) ∧
      (∀ q ∈ snap.top_artists,
        q.2.map Prod.fst = snap.top_genres.foldl pyKeyInsert []) ∧
      (∀ q ∈ snap.top_artists, ∀ r ∈ q.2, r.2.length ≤ cfg.top_n_artists) ∧
      (∃ (tok : Json) (i3 i4 : Nat) (ms : List Json),
        get_markets ev cfg tok i3 = .ok (ms, i4) ∧
        snap.country_genre_popularity.map Prod.fst = ms.foldl pyKeyInsert [] ∧
        (∀ m, m ∈ snap.country_genre_popularity.map Prod.fst ↔ m ∈ ms)) := by
  intro ev cfg snap h
  obtain ⟨tok, i1, cats, i2, gsc, i3, ms, i4, cgp, ta, i5,
    h1, h2, h3, h4, h5, h6, h7, hsnap⟩ := main_ok_inversion ev cfg snap h
  have hspec := marketsLoop_spec ev cfg tok
    (((pySortDesc gsc).take cfg.top_n_genres).map Prod.fst) ms [] [] i4 cgp ta i5 h7
    rfl (by intro q hq; simp at hq) (by intro q hq; simp at hq)
    (by intro q hq; simp at hq)
  obtain ⟨ha, hb, hc, hd, he⟩ := hspec
  subst hsnap
  refine ⟨?_, hc, hd, he, tok, i3, i4, ms, h5, ?_, ?_⟩
  · show cgp.map Prod.fst = ta.map Prod.fst
    rw [ha, hb]
  · exact ha
  · intro m
    show m ∈ cgp.map Prod.fst ↔ m ∈ ms
    rw [ha]
    rw [mem_foldl_pyKeyInsert]
    simp

/-- Happy-path script: token, one short category page, a 404 for the
global track fetch, one market, and 404s for the two per-pair fetches. -/
def happyEv : Nat → NetEvent := evOfList
  [ .success ⟨200, none, Json.obj [("access_token", Json.str "tok")]⟩,
    .success ⟨200, none, Json.obj [("categories", Json.obj [("items",
      Json.arr [Json.obj [("name", Json.str "g"), ("id", Json.str "c")]])])]⟩,
    .success ⟨404, none, Json.null⟩,
    .success ⟨200, none, Json.obj [("markets", Json.arr [Json.str "US"])]⟩,
    .success ⟨404, none, Json.null⟩,
    .success ⟨404, none, Json.null⟩ ]

/-- The snapshot the happy-path script produces: one market, one genre,
zero score, empty artist list. -/
def happySnap : Snapshot :=
  ⟨[Json.str "g"], [(Json.str "US", [(Json.str "g", 0)])],
    [(Json.str "US", [(Json.str "g", [])])]⟩

/-- Witness for C10 on the happy-path run. -/
theorem C10_snapshot_invariants_witness :
    happySnap.country_genre_popularity.map Prod.fst
        = happySnap.top_artists.map Prod.fst ∧
    (∀ q ∈ happySnap.country_genre_popularity,
      q.2.map Prod.fst = happySnap.top_genres.foldl pyKeyInsert []) ∧
    (∀ q ∈ happySnap.top_artists,
      q.2.map Prod.fst = happySnap.top_genres.foldl pyKeyInsert []) ∧
    (∀ q ∈ happySnap.top_artists, ∀ r ∈ q.2,
      r.2.length ≤ (⟨10, 50, 50, 10, 5⟩ : Config).top_n_artists) ∧
    (∃ (tok : Json) (i3 i4 : Nat) (ms : List Json),
      get_markets happyEv ⟨10, 50, 50, 10, 5⟩ tok i3 = .ok (ms, i4) ∧
      happySnap.country_genre_popularity.map Prod.fst = ms.foldl pyKeyInsert [] ∧
      (∀ m, m ∈ happySnap.country_genre_popularity.map Prod.fst ↔ m ∈ ms)) :=
  C10_snapshot_invariants happyEv ⟨10, 50, 50, 10, 5⟩ happySnap (by rfl)

/-- C1 (amended): when both fetches for a (market, genre) pair resolve to
an empty track list without raising — the Fetcher reporting no result, or
a body that is a JSON object whose expected keys are simply missing — the
pair is recorded with a zero genre score and an empty top-artist list and
the loop continues with the remaining genres (first conjunct); and every
completed run writes a snapshot with an entry for every fetched market in
both maps (second conjunct). A malformed response body that is not a JSON
object instead raises an uncaught exception that aborts the whole run with
no snapshot (see the counterexample). -/
theorem C1_pair_failure_amended :
    (∀ (ev : Nat → NetEvent) (cfg : Config) (token market g : Json) (gs : List Json)
      (cs : List (Json × Int)) (as2 : List (Json × List (Json × Int))) (i i2 i3 : Nat),
      fetch_genre_tracks ev token g (some market) cfg.tracks_per_genre i = .ok ([], i2) →
      fetch_genre_tracks ev token g (some market) cfg.tracks_per_genre i2 = .ok ([], i3) →
      genreLoop ev cfg token market (g :: gs) cs as2 i
        = genreLoop ev cfg token market gs (dictSet cs g 0) (dictSet as2 g []) i3) ∧
    (∀ (ev : Nat → NetEvent) (cfg : Config) (snap : Snapshot),
      main ev cfg = .ok (some snap) →
      ∃ (tok : Json) (i3 i4 : Nat) (ms : List Json),
        get_markets ev cfg tok i3 = .ok (ms, i4) ∧
        ∀ m ∈ ms, m ∈ snap.country_genre_popularity.map Prod.fst
          ∧ m ∈ snap.top_artists.map Prod.fst) := by
  constructor
  · intro ev cfg token market g gs cs as2 i i2 i3 hf1 hf2
    have hagg : aggregateTop [] cfg.top_n_artists = .ok [] := by
      unfold aggregateTop
      rw [show artistScores [] = Except.ok [] from rfl, except_bind_ok, except_pure]
      rw [show pySortDesc ([] : List (Json × Int)) = [] from rfl, List.take_nil]
    have hfa : fetch_top_artists_for_genre ev token g (some market)
        cfg.tracks_per_genre cfg.top_n_artists i2 = .ok ([], i3) := by
      unfold fetch_top_artists_for_genre
      rw [hf2, except_bind_ok]
      dsimp only
      rw [hagg, except_bind_ok, except_pure]
    simp only [genreLoop]
    rw [hf1, except_bind_ok]
    rw [show sumPop [] = Except.ok (0 : Int) from rfl, except_bind_ok]
    rw [hfa, except_bind_ok]
  · intro ev cfg snap h
    obtain ⟨tok, i1, cats, i2, gsc, i3, ms, i4, cgp, ta, i5,
      h1, h2, h3, h4, h5, h6, h7, hsnap⟩ := main_ok_inversion ev cfg snap h
    have hspec := marketsLoop_spec ev cfg tok
      (((pySortDesc gsc).take cfg.top_n_genres).map Prod.fst) ms [] [] i4 cgp ta i5 h7
      rfl (by intro q hq; simp at hq) (by intro q hq; simp at hq)
      (by intro q hq; simp at hq)
    obtain ⟨ha, hb, _, _, _⟩ := hspec
    subst hsnap
    refine ⟨tok, i3, i4, ms, h5, ?_⟩
    intro m hm
    constructor
    · show m ∈ cgp.map Prod.fst
      rw [ha]
      exact (mem_foldl_pyKeyInsert ms _ m).mpr (Or.inr hm)
    · show m ∈ ta.map Prod.fst
      rw [hb]
      exact (mem_foldl_pyKeyInsert ms _ m).mpr (Or.inr hm)

/-- Witness for C1 on the happy-path run: the (US, g) pair fails benignly
(two 404s), is recorded as (0, []), and the completed snapshot contains
the market US in both maps. -/
theorem C1_pair_failure_amended_witness :
    genreLoop happyEv ⟨10, 50, 50, 10, 5⟩ (Json.str "tok") (Json.str "US")
        [Json.str "g"] [] [] 4
      = genreLoop happyEv ⟨10, 50, 50, 10, 5⟩ (Json.str "tok") (Json.str "US")
        [] (dictSet [] (Json.str "g") 0) (dictSet [] (Json.str "g") []) 6 ∧
    (∃ (tok : Json) (i3 i4 : Nat) (ms : List Json),
      get_markets happyEv ⟨10, 50, 50, 10, 5⟩ tok i3 = .ok (ms, i4) ∧
      ∀ m ∈ ms, m ∈ happySnap.country_genre_popularity.map Prod.fst
        ∧ m ∈ happySnap.top_artists.map Prod.fst) := by
  constructor
  · exact C1_pair_failure_amended.1 happyEv ⟨10, 50, 50, 10, 5⟩ (Json.str "tok")
      (Json.str "US") (Json.str "g") [] [] [] 4 5 6 (by rfl) (by rfl)
  · exact C1_pair_failure_amended.2 happyEv ⟨10, 50, 50, 10, 5⟩ happySnap (by rfl)

/-- Script identical to the happy path except that the (US, g) pair fetch
is answered 200 with a body that is a JSON array instead of an object. -/
def cexC1Ev : Nat → NetEvent := evOfList
  [ .success ⟨200, none, Json.obj [("access_token", Json.str "tok")]⟩,
    .success ⟨200, none, Json.obj [("categories", Json.obj [("items",
      Json.arr [Json.obj [("name", Json.str "g"), ("id", Json.str "c")]])])]⟩,
    .success ⟨404, none, Json.null⟩,
    .success ⟨200, none, Json.obj [("markets", Json.arr [Json.str "US"])]⟩,
    .success ⟨200, none, Json.arr []⟩ ]

/-- C1 counterexample: on the first (market, genre) pair of the main loop
the fetch returns a malformed body (a JSON array, on which `.get` raises
AttributeError), and the whole run aborts with an uncaught exception — no
pair is recorded as zero/empty, the loop does not continue, and no
snapshot is written, contrary to the claim. -/
theorem C1_counterexample :
    main cexC1Ev ⟨10, 50, 50, 10, 5⟩ = .error .attributeError := by rfl

/-- C2 counterexample: a 429 whose Retry-After is the non-numeric string
"abc" makes `safe_request` raise an uncaught ValueError after a single
request, instead of sleeping 1 second and retrying, and instead of
returning a response or the no-result signal. -/
theorem C2_counterexample :
    (safe_request (evOfList [.success ⟨429, some "abc", Json.null⟩]) 0).res
        = .error .valueError ∧
    (safe_request (evOfList [.success ⟨429, some "abc", Json.null⟩]) 0).next = 1 := by
  exact ⟨rfl, rfl⟩

/-! ### Boundary Normalizer and Aggregate-Geometry Joiner (claims C6, C7)

The joiner inputs are the snapshot as read back from JSON (string keys,
integer scores) and the boundary frame, modelled as a list of columns
(name, string values); geometry plays no role in the joined fields the
claims are about. ASCII case mapping suffices for the column names and
ISO codes these files hold. -/

/-- ASCII lower-casing of one character. -/
def lowChar (c : Char) : Char :=
  if 'A' ≤ c ∧ c ≤ 'Z' then Char.ofNat (c.toNat + 32) else c

/-- Python str.lower on ASCII strings. -/
def lowStr (s : String) : String := String.mk (s.data.map lowChar)

/-- ASCII upper-casing of one character. -/
def upChar (c : Char) : Char :=
  if 'a' ≤ c ∧ c ≤ 'z' then Char.ofNat (c.toNat - 32) else c

/-- Python str.upper on ASCII strings. -/
def upStr (s : String) : String := String.mk (s.data.map upChar)

/-- Python str.startswith. -/
def swStr (p s : String) : Bool := p.data.isPrefixOf s.data

/-- Python single-character substring test ("2" in c). -/
def hasChar (s : String) (c : Char) : Bool := s.data.contains c

/-- The ISO-2 column aliases of prepare_and_render_maps.py line 42. -/
def isoAliases : List String := ["iso_a2", "iso2", "iso_3166_1_alpha_2", "iso3166-1-alpha-2"]

/-- Renaming the column named `c` to iso_a2 (pandas rename). -/
def renameCol (world : List (String × List String)) (c : String) :
    List (String × List String) :=
  world.map (fun col => if col.1 = c then ("iso_a2", col.2) else col)

/-- Upper-casing the values of the iso_a2 column (line 47, app.py line 27). -/
def upperIso (world : List (String × List String)) : List (String × List String) :=
  world.map (fun col => if col.1 = "iso_a2" then (col.1, col.2.map upStr) else col)

/-- The alias loop of prepare_and_render_maps.py lines 41-44: the first
column whose lower-cased name is in the alias set. -/
def prep_find_iso : List String → Option String
  | [] => none
  | c :: cs => if isoAliases.contains (lowStr c) then some c else prep_find_iso cs

/-- Boundary Normalizer of prepare_and_render_maps.py lines 40-47: rename
the first alias match and upper-case the codes; raise RuntimeError when no
column matches. -/
def prepare_normalize (world : List (String × List String)) :
    Except String (List (String × List String)) :=
  match prep_find_iso (world.map Prod.fst) with
  | none => .error "No ISO-2 column found in boundaries file"
  | some c => .ok (upperIso (renameCol world c))

/-- The comprehension of app.py line 25: columns whose lower-cased name
starts with iso and which contain the digit 2. -/
def app_iso_matches (cols : List String) : List String :=
  cols.filter (fun c => swStr "iso" (lowStr c) && hasChar c '2')

/-- Boundary Normalizer of app.py lines 25-27: take the LAST matching
column (the [-1] of the comprehension; IndexError when there is none),
rename it, and upper-case the codes. -/
def app_normalize (world : List (String × List String)) :
    Except PyErr (List (String × List String)) :=
  match (app_iso_matches (world.map Prod.fst)).getLast? with
  | none => .error .indexError
  | some c => .ok (upperIso (renameCol world c))

/-- Pandas left merge on iso_a2, restricted to the fields the views read:
every boundary row is paired with each aggregate row carrying the same
code, or with a missing marker (the NaN row) when none does. -/
def leftMerge {β : Type} (world : List String) (df : List (String × β)) :
    List (String × Option β) :=
  world.flatMap (fun w =>
    match df.filter (fun r => r.1 == w) with
    | [] => [(w, none)]
    | ms => ms.map (fun r => (w, some r.2)))

/-- A joined row of the three sentinel-filling views. -/
structure Row where
  iso_a2 : String
  value : Int
  tip : String
deriving Repr, DecidableEq

/-- A joined row of the dashboard per-genre view, whose tooltip cell stays
missing (NaN) when the country is absent from the tooltip dict. -/
structure AppGRow where
  iso_a2 : String
  value : Int
  top5 : Option String
deriving Repr, DecidableEq

/-- Total-view records of prepare_and_render_maps.py lines 60-67: summed
value and a top-5 genre tooltip per country, codes upper-cased. -/
def prep_total_records (pop : List (String × List (String × Int))) :
    List (String × (Int × String)) :=
  pop.map (fun p =>
    (upStr p.1,
      ((p.2.map Prod.snd).sum,
        String.intercalate "<br>" (((pySortDesc p.2).take 5).map
          (fun q => q.1 ++ ": " ++ toString q.2)))))

/-- Total view of prepare_and_render_maps.py lines 72-74: left merge, then
fillna 0 for the value and the "No data" sentinel for the tooltip. -/
def prep_merged_total (world : List String) (pop : List (String × List (String × Int))) :
    List Row :=
  (leftMerge world (prep_total_records pop)).map (fun r =>
    match r.2 with
    | none => ⟨r.1, 0, "No data"⟩
    | some (v, t) => ⟨r.1, v, t⟩)

/-- Total-view records of app.py lines 36-48 (comma-joined name (score)
formatting). -/
def app_tot_records (pop : List (String × List (String × Int))) :
    List (String × (Int × String)) :=
  pop.map (fun p =>
    (upStr p.1,
      ((p.2.map Prod.snd).sum,
        String.intercalate ", " (((pySortDesc p.2).take 5).map
          (fun q => q.1 ++ " (" ++ toString q.2 ++ ")")))))

/-- Total view of app.py line 50: left merge, fillna 0 / "None". -/
def app_merged_tot (world : List String) (pop : List (String × List (String × Int))) :
    List Row :=
  (leftMerge world (app_tot_records pop)).map (fun r =>
    match r.2 with
    | none => ⟨r.1, 0, "None"⟩
    | some (v, t) => ⟨r.1, v, t⟩)

/-- Per-genre records of prepare_and_render_maps.py lines 104-111: genre
value with default 0, top-5 artist tooltip with the "No artists" fallback
for an empty join. -/
def prep_genre_records (pop : List (String × List (String × Int)))
    (art : List (String × List (String × List (String × Int)))) (genre : String) :
    List (String × (Int × String)) :=
  pop.map (fun p =>
    (upStr p.1,
      ((p.2.lookup genre).getD 0,
        (fun tip0 => if tip0 = "" then "No artists" else tip0)
          (String.intercalate "<br>" (((((art.lookup p.1).getD []).lookup genre).getD
            []).take 5 |>.map (fun q => q.1 ++ ": " ++ toString q.2))))))

/-- Per-genre view of prepare_and_render_maps.py lines 113-115: left merge,
fillna 0 / "No data". -/
def prep_merged_genre (world : List String) (pop : List (String × List (String × Int)))
    (art : List (String × List (String × List (String × Int)))) (genre : String) :
    List Row :=
  (leftMerge world (prep_genre_records pop art genre)).map (fun r =>
    match r.2 with
    | none => ⟨r.1, 0, "No data"⟩
    | some (v, t) => ⟨r.1, v, t⟩)

/-- Loop body of app.py lines 89-95: one country of `country_art` yields a
value record (KeyError when the country is missing from country_pop) and a
tooltip-dict entry keyed by the upper-cased code, with the "None" fallback
for an empty artist list. -/
def appGenreStep (pop : List (String × List (String × Int))) (genre : String)
    (acc : List (String × Int) × List (String × String))
    (p : String × List (String × List (String × Int))) :
    Except PyErr (List (String × Int) × List (String × String)) := do
  let vals ← match pop.lookup p.1 with
             | some v => Except.ok v
             | none => Except.error PyErr.keyError
  pure (acc.1 ++ [(upStr p.1, (vals.lookup genre).getD 0)],
    dictSet acc.2 (upStr p.1)
      ((fun tipRaw => if tipRaw = "" then "None" else tipRaw)
        (String.intercalate ", " ((((p.2.lookup genre).getD []).take 5).map
          (fun q => q.1 ++ " (" ++ toString q.2 ++ ")")))))

/-- Records and tooltip dict of app.py lines 87-96 for one genre. -/
def app_genre_records (pop : List (String × List (String × Int)))
    (art : List (String × List (String × List (String × Int)))) (genre : String) :
    Except PyErr (List (String × Int) × List (String × String)) :=
  art.foldlM (appGenreStep pop genre) ([], [])

/-- Per-genre view of app.py lines 98-103: left merge, fillna 0 for the
value only, then the tooltip column is produced by mapping the tooltip
dict over the iso codes — a country with no dict entry keeps a missing
(NaN) tooltip cell. -/
def app_merged_genre (world : List String) (pop : List (String × List (String × Int)))
    (art : List (String × List (String × List (String × Int)))) (genre : String) :
    Except PyErr (List AppGRow) := do
  let rt ← app_genre_records pop art genre
  pure ((leftMerge world rt.1).map (fun r =>
    ⟨r.1, (r.2.getD 0), rt.2.lookup r.1⟩))

/-- With duplicate-free keys, filtering for one key finds the looked-up
entry (pandas merge degenerates to a lookup). -/
theorem filter_eq_of_nodup {β : Type} (df : List (String × β)) (w : String)
    (h : (df.map Prod.fst).Nodup) :
    df.filter (fun r => r.1 == w)
      = match df.lookup w with
        | none => []
        | some v => [(w, v)] := by
  induction df with
  | nil => rfl
  | cons p df ih =>
      obtain ⟨k, v0⟩ := p
      rw [List.map_cons] at h
      rcases List.nodup_cons.mp h with ⟨hnm, hnd⟩
      by_cases hw : ((k, v0).1 == w) = true
      · rw [List.filter_cons, if_pos hw]
        have hkw : k = w := by
          rw [beq_iff_eq] at hw
          exact hw
        have hwk : (w == k) = true := by
          rw [beq_iff_eq]
          exact hkw.symm
        have hrest : df.filter (fun r => r.1 == w) = [] := by
          rw [List.filter_eq_nil_iff]
          intro r hr hcon
          rw [beq_iff_eq] at hcon
          apply hnm
          show k ∈ List.map Prod.fst df
          rw [hkw, ← hcon]
          exact List.mem_map_of_mem Prod.fst hr
        rw [hrest]
        simp [List.lookup, hwk, hkw]
      · rw [List.filter_cons, if_neg hw]
        have hwk : (w == k) = false := by
          rw [Bool.eq_false_iff]
          intro hx
          rw [beq_iff_eq] at hx
          apply hw
          rw [beq_iff_eq]
          exact hx.symm
        simp only [List.lookup, hwk]
        exact ih hnd

/-- With duplicate-free aggregate keys the left merge is exactly one
output row per boundary record, in order, holding the lookup result. -/
theorem leftMerge_nodup {β : Type} (world : List String) (df : List (String × β))
    (h : (df.map Prod.fst).Nodup) :
    leftMerge world df = world.map (fun w => (w, df.lookup w)) := by
  induction world with
  | nil => rfl
  | cons w ws ih =>
      unfold leftMerge
      rw [List.flatMap_cons]
      unfold leftMerge at ih
      rw [ih, filter_eq_of_nodup df w h]
      cases hl : df.lookup w with
      | none => simp only [List.map_cons, hl]; rfl
      | some v => simp only [List.map_cons, hl]; rfl

/-- Keys of the static total-view records. -/
theorem prep_total_records_keys (pop : List (String × List (String × Int))) :
    (prep_total_records pop).map Prod.fst = pop.map (fun p => upStr p.1) := by
  unfold prep_total_records
  rw [List.map_map]
  rfl

/-- Keys of the dashboard total-view records. -/
theorem app_tot_records_keys (pop : List (String × List (String × Int))) :
    (app_tot_records pop).map Prod.fst = pop.map (fun p => upStr p.1) := by
  unfold app_tot_records
  rw [List.map_map]
  rfl

/-- Keys of the static per-genre records. -/
theorem prep_genre_records_keys (pop : List (String × List (String × Int)))
    (art : List (String × List (String × List (String × Int)))) (genre : String) :
    (prep_genre_records pop art genre).map Prod.fst = pop.map (fun p => upStr p.1) := by
  unfold prep_genre_records
  rw [List.map_map]
  rfl

/-- Keys of the dashboard per-genre value records: the upper-cased
countries of the artist map, in order. -/
theorem app_genre_records_keys (pop : List (String × List (String × Int))) (genre : String) :
    ∀ (art : List (String × List (String × List (String × Int))))
      (st : List (String × Int) × List (String × String))
      (recs : List (String × Int)) (tips : List (String × String)),
      art.foldlM (appGenreStep pop genre) st = .ok (recs, tips) →
      recs.map Prod.fst = st.1.map Prod.fst ++ art.map (fun p => upStr p.1) := by
  intro art
  induction art with
  | nil =>
      intro st recs tips h
      rw [List.foldlM_nil, except_pure] at h
      simp only [Except.ok.injEq] at h
      rw [h]
      simp
  | cons p art ih =>
      intro st recs tips h
      rw [List.foldlM_cons] at h
      cases hl : pop.lookup p.1 with
      | none =>
          have hstep : appGenreStep pop genre st p = .error PyErr.keyError := by
            unfold appGenreStep
            rw [hl]
            rfl
          rw [hstep, except_bind_error] at h
          simp at h
      | some vals =>
          have hstep : ∃ val tip, appGenreStep pop genre st p
              = .ok (st.1 ++ [(upStr p.1, val)], dictSet st.2 (upStr p.1) tip) := by
            unfold appGenreStep
            rw [hl]
            exact ⟨_, _, rfl⟩
          obtain ⟨val, tip, hstep⟩ := hstep
          rw [hstep, except_bind_ok] at h
          have hres := ih (st.1 ++ [(upStr p.1, val)], dictSet st.2 (upStr p.1) tip)
            recs tips h
          rw [hres]
          simp

/-- C6 (amended): for an aggregate whose upper-cased country codes are
duplicate-free, every one of the four join views yields exactly one output
row per boundary record, in boundary order, determined by a lookup of the
record's code. An unmatched record gets value 0 in all views; its tooltip
is the sentinel ("No data" / "None") in the two total views and the static
per-genre view, but in the dashboard per-genre view the tooltip cell of an
unmatched record is the missing marker (NaN), not a sentinel — see the
counterexample. -/
theorem C6_left_join_amended :
    (∀ (world : List String) (pop : List (String × List (String × Int))),
      (pop.map (fun p => upStr p.1)).Nodup →
      prep_merged_total world pop = world.map (fun w =>
        match (prep_total_records pop).lookup w with
        | none => ⟨w, 0, "No data"⟩
        | some (v, t) => ⟨w, v, t⟩)) ∧
    (∀ (world : List String) (pop : List (String × List (String × Int))),
      (pop.map (fun p => upStr p.1)).Nodup →
      app_merged_tot world pop = world.map (fun w =>
        match (app_tot_records pop).lookup w with
        | none => ⟨w, 0, "None"⟩
        | some (v, t) => ⟨w, v, t⟩)) ∧
    (∀ (world : List String) (pop : List (String × List (String × Int)))
      (art : List (String × List (String × List (String × Int)))) (genre : String),
      (pop.map (fun p => upStr p.1)).Nodup →
      prep_merged_genre world pop art genre = world.map (fun w =>
        match (prep_genre_records pop art genre).lookup w with
        | none => ⟨w, 0, "No data"⟩
        | some (v, t) => ⟨w, v, t⟩)) ∧
    (∀ (world : List String) (pop : List (String × List (String × Int)))
      (art : List (String × List (String × List (String × Int)))) (genre : String)
      (recs : List (String × Int)) (tips : List (String × String)),
      (art.map (fun p => upStr p.1)).Nodup →
      app_genre_records pop art genre = .ok (recs, tips) →
      app_merged_genre world pop art genre
        = .ok (world.map (fun w => ⟨w, (recs.lookup w).getD 0, tips.lookup w⟩))) := by
  refine ⟨?_, ?_, ?_, ?_⟩
  · intro world pop h
    unfold prep_merged_total
    rw [leftMerge_nodup world _ (by rw [prep_total_records_keys]; exact h), List.map_map]
    refine List.map_congr_left ?_
    intro w hw
    cases hl : (prep_total_records pop).lookup w with
    | none => simp only [Function.comp_apply, hl]
    | some q => cases q with | mk v t => simp only [Function.comp_apply, hl]
  · intro world pop h
    unfold app_merged_tot
    rw [leftMerge_nodup world _ (by rw [app_tot_records_keys]; exact h), List.map_map]
    refine List.map_congr_left ?_
    intro w hw
    cases hl : (app_tot_records pop).lookup w with
    | none => simp only [Function.comp_apply, hl]
    | some q => cases q with | mk v t => simp only [Function.comp_apply, hl]
  · intro world pop art genre h
    unfold prep_merged_genre
    rw [leftMerge_nodup world _ (by rw [prep_genre_records_keys]; exact h), List.map_map]
    refine List.map_congr_left ?_
    intro w hw
    cases hl : (prep_genre_records pop art genre).lookup w with
    | none => simp only [Function.comp_apply, hl]
    | some q => cases q with | mk v t => simp only [Function.comp_apply, hl]
  · intro world pop art genre recs tips hnd hrec
    unfold app_merged_genre
    rw [hrec, except_bind_ok, except_pure]
    have hk : (recs.map Prod.fst).Nodup := by
      rw [app_genre_records_keys pop genre art ([], []) recs tips hrec]
      simpa using hnd
    rw [leftMerge_nodup world recs hk, List.map_map]
    rfl

/-- C6 counterexample: the dashboard per-genre view of a boundary record
(US) with no matching aggregate entry: the value is filled with 0, but the
tooltip cell is the missing marker, not the "No data"/"None" sentinel the
claim requires of every per-genre view. -/
theorem C6_counterexample :
    app_merged_genre ["US"] [("GB", [("g", 1)])] [("GB", [("g", [])])] "g"
      = .ok [⟨"US", 0, none⟩] := by rfl

/-- Witness for C6 on concrete inputs, one per view, each with a boundary
record missing from the aggregate. -/
theorem C6_left_join_amended_witness :
    prep_merged_total ["US", "GB"] [("us", [("g1", 10), ("g2", 20)])]
      = [⟨"US", 30, "g2: 20<br>g1: 10"⟩, ⟨"GB", 0, "No data"⟩] ∧
    app_merged_tot ["FR"] [("US", [("g1", 4)])] = [⟨"FR", 0, "None"⟩] ∧
    prep_merged_genre ["US", "FR"] [("US", [("g", 7)])] [("US", [("g", [("A", 3)])])] "g"
      = [⟨"US", 7, "A: 3"⟩, ⟨"FR", 0, "No data"⟩] ∧
    app_merged_genre ["US", "FR"] [("US", [("g", 7)])] [("US", [("g", [("A", 3)])])] "g"
      = .ok [⟨"US", 7, some "A (3)"⟩, ⟨"FR", 0, none⟩] := by
  refine ⟨?_, ?_, ?_, ?_⟩
  · exact (C6_left_join_amended.1 ["US", "GB"] [("us", [("g1", 10), ("g2", 20)])]
      (by decide)).trans (by rfl)
  · exact (C6_left_join_amended.2.1 ["FR"] [("US", [("g1", 4)])] (by decide)).trans (by rfl)
  · exact (C6_left_join_amended.2.2.1 ["US", "FR"] [("US", [("g", 7)])]
      [("US", [("g", [("A", 3)])])] "g" (by decide)).trans (by rfl)
  · exact (C6_left_join_amended.2.2.2 ["US", "FR"] [("US", [("g", 7)])]
      [("US", [("g", [("A", 3)])])] "g" [("US", 7)] [("US", "A (3)")]
      (by decide) (by rfl)).trans (by rfl)

/-- C7 (amended): the static pipeline normalizer renames the FIRST column
whose lower-cased name is in the alias set to iso_a2, upper-cases its
values, and raises the configuration RuntimeError when no column matches.
The dashboard normalizer instead matches any column whose lower-cased name
starts with iso and which contains the character 2 — a superset of the
alias set — takes the LAST such column, and raises an IndexError, not a
configuration error, when none matches. Upper-casing is preserved into the
output for the renamed column. -/
theorem C7_normalizer_amended :
    (∀ cols : List String, prep_find_iso cols
        = cols.find? (fun c => isoAliases.contains (lowStr c))) ∧
    (∀ world : List (String × List String),
      prep_find_iso (world.map Prod.fst) = none →
      prepare_normalize world = .error "No ISO-2 column found in boundaries file") ∧
    (∀ (world : List (String × List String)) (c : String),
      prep_find_iso (world.map Prod.fst) = some c →
      prepare_normalize world = .ok (upperIso (renameCol world c))) ∧
    (∀ a ∈ isoAliases, (swStr "iso" (lowStr a) && hasChar a '2') = true) ∧
    (∀ world : List (String × List String),
      app_iso_matches (world.map Prod.fst) = [] →
      app_normalize world = .error PyErr.indexError) ∧
    (∀ (world : List (String × List String)) (c : String),
      (app_iso_matches (world.map Prod.fst)).getLast? = some c →
      app_normalize world = .ok (upperIso (renameCol world c))) ∧
    (∀ (l : List (String × List String)) (vals : List String),
      ("iso_a2", vals) ∈ l → ("iso_a2", vals.map upStr) ∈ upperIso l) := by
  refine ⟨?_, ?_, ?_, ?_, ?_, ?_, ?_⟩
  · intro cols
    induction cols with
    | nil => rfl
    | cons c cs ih =>
        by_cases hc : isoAliases.contains (lowStr c) = true
        · unfold prep_find_iso
          rw [if_pos hc,
            @List.find?_cons_of_pos _ (fun c => isoAliases.contains (lowStr c)) c cs hc]
        · unfold prep_find_iso
          rw [if_neg hc,
            @List.find?_cons_of_neg _ (fun c => isoAliases.contains (lowStr c)) c cs hc, ih]
  · intro world h
    unfold prepare_normalize
    rw [h]
  · intro world c h
    unfold prepare_normalize
    rw [h]
  · decide
  · intro world h
    unfold app_normalize
    rw [h]
    rfl
  · intro world c h
    unfold app_normalize
    rw [h]
  · intro l vals h
    have h2 := List.mem_map_of_mem
      (fun col : String × List String =>
        if col.1 = "iso_a2" then (col.1, col.2.map upStr) else col) h
    simpa [upperIso] using h2

/-- C7 counterexample: the dashboard normalizer accepts a column
(isolation_2020) outside the alias set; when two candidates are present it
renames the last, not the first the claim (and the static pipeline) picks;
and with no candidate it fails with an IndexError, not a configuration
error. -/
theorem C7_counterexample :
    isoAliases.contains (lowStr "isolation_2020") = false ∧
    app_normalize [("isolation_2020", ["us"])] = .ok [("iso_a2", ["US"])] ∧
    prepare_normalize [("isolation_2020", ["us"])]
      = .error "No ISO-2 column found in boundaries file" ∧
    app_normalize [("iso2", ["us"]), ("ISO_A2", ["gb"])]
      = .ok [("iso2", ["us"]), ("iso_a2", ["GB"])] ∧
    prepare_normalize [("iso2", ["us"]), ("ISO_A2", ["gb"])]
      = .ok [("iso_a2", ["US"]), ("ISO_A2", ["gb"])] ∧
    app_normalize [("name", ["x"])] = .error PyErr.indexError := by
  refine ⟨by decide, by rfl, by rfl, by rfl, by rfl, by rfl⟩

/-- Witness for C7 at concrete boundary tables: the static normalizer on a
table with no alias column and on one with an ISO2 column; the dashboard
normalizer likewise; an alias set member matching the dashboard pattern;
and upper-cased values surviving into the normalized output. -/
theorem C7_normalizer_amended_witness :
    prepare_normalize [("name", ["x"])]
      = Except.error "No ISO-2 column found in boundaries file" ∧
    prepare_normalize [("ISO2", ["gb"])] = Except.ok [("iso_a2", ["GB"])] ∧
    (swStr "iso" (lowStr "iso_3166_1_alpha_2") && hasChar "iso_3166_1_alpha_2" '2') = true ∧
    app_normalize [("nope", ["x"])] = Except.error PyErr.indexError ∧
    app_normalize [("Iso_A2", ["fr"])] = Except.ok [("iso_a2", ["FR"])] ∧
    ("iso_a2", ["GB"]) ∈ upperIso [("iso_a2", ["gb"])] := by
  refine ⟨?_, ?_, ?_, ?_, ?_, ?_⟩
  · exact C7_normalizer_amended.2.1 [("name", ["x"])] (by decide)
  · exact (C7_normalizer_amended.2.2.1 [("ISO2", ["gb"])] "ISO2" (by decide)).trans (by rfl)
  · exact C7_normalizer_amended.2.2.2.1 "iso_3166_1_alpha_2" (by decide)
  · exact C7_normalizer_amended.2.2.2.2.1 [("nope", ["x"])] (by decide)
  · exact (C7_normalizer_amended.2.2.2.2.2.1 [("Iso_A2", ["fr"])] "Iso_A2"
      (by decide)).trans (by rfl)
  · exact C7_normalizer_amended.2.2.2.2.2.2 [("iso_a2", ["gb"])] ["gb"] (by simp)

end BB
